import Mathlib

/-!
# gofiber/limiter: fixed-window rate limiting middleware

A shallow embedding of `src/main.go` (package `limiter`) and of the downstream
handler of `src/main_test.go`.

Modelling conventions.

* The handler is given twice. `recordHit`, `serve` and `serveAll` compute over
  the mathematical integers and give an evaluation one clock value; they state
  the counting logic where no operation leaves the range of `int`.
  `recordHit64`, `serve64`, `step` and `Goroutine.step` follow the machine: Go
  `int` is 64 bits wide, the `+` of line 117 and the `-` of lines 122 and 125
  wrap around, and the reads of `timestamp` at lines 117 and 122 each have
  their own value. `serve64_eq_serve` says when the two agree.
* `hits[key]++` is exact in both: the counter starts at 0, moves by one per
  request and is reset by the sweeper; 2^63 requests of one key do not occur.
* `map[string]int` is an association list; a key that is absent reads as `0`,
  the zero value Go returns for a missing key.
* The shared variable `timestamp` is an explicit argument of every step that
  reads it.
* The section between `mux.Lock()` and `mux.Unlock()` is one atomic step, so a
  concurrent execution is a sequence of such steps in the order in which the
  lock was taken. The section `Goroutines` does without this convention: there
  the handler runs statement by statement, the mutex is a flag, and every read
  of `timestamp` takes its own value from the schedule.
* `*fiber.Ctx` is a record of the request data the middleware reads and of the
  response it writes. The calls the middleware makes on it are returned as a
  list in program order and interpreted by `Call.exec`.
* Calling a nil function value panics: the handler returns `none`.
* The sweeper ranges over `reset` and reads it before it takes the mutex
  (lines 90 to 92). When such a read meets a write of a handler the Go runtime
  ends the program; this is the event `Event.abort`, after which a history has
  no state.
-/

namespace limiter

/-! ## Go maps -/

/-- Go `map[string]int`, as the list of its entries. -/
structure IntMap where
  entries : List (String × Int)

/-- Lookup in a list of entries; the zero value when the key is absent. -/
def lookup : List (String × Int) → String → Int
  | [], _ => 0
  | (k, v) :: rest, key => if k = key then v else lookup rest key

/-- Assignment in a list of entries: overwrite the entry, or add one. -/
def assign : List (String × Int) → String → Int → List (String × Int)
  | [], key, v => [(key, v)]
  | (k, w) :: rest, key, v =>
    if k = key then (k, v) :: rest else (k, w) :: assign rest key v

/-- The map `make(map[string]int)`. -/
def IntMap.empty : IntMap := ⟨[]⟩

/-- Read `m[key]`. -/
def IntMap.get (m : IntMap) (key : String) : Int := lookup m.entries key

/-- Write `m[key] = v`. -/
def IntMap.set (m : IntMap) (key : String) (v : Int) : IntMap :=
  ⟨assign m.entries key v⟩

/-- Keys visited by `for key := range m`. -/
def IntMap.keys (m : IntMap) : List String := m.entries.map Prod.fst

/-! ## The request context -/

/-- Fields of `*fiber.Ctx` the middleware and its collaborators touch. -/
structure Ctx where
  ip : String
  path : String
  status : Int
  body : String
  headers : List (String × String)

/-- Remote address, `c.IP()`. -/
def Ctx.IP (c : Ctx) : String := c.ip

/-- Response status, `c.Status(code)`. -/
def Ctx.Status (c : Ctx) (code : Int) : Ctx := { c with status := code }

/-- Response body, `c.SendString(body)`. -/
def Ctx.SendString (c : Ctx) (body : String) : Ctx := { c with body := body }

/-- Response body, `c.Send(body)`. -/
def Ctx.Send (c : Ctx) (body : String) : Ctx := { c with body := body }

/-- Response header, `c.Set(key, val)`: the latest value of a header wins. -/
def Ctx.Set (c : Ctx) (key val : String) : Ctx :=
  { c with headers := (key, val) :: c.headers.filter (fun kv => kv.1 ≠ key) }

/-- Response header as read by the client. -/
def Ctx.Get (c : Ctx) (key : String) : Option String :=
  (c.headers.find? (fun kv => kv.1 = key)).map Prod.snd

/-- A request as the test server hands it to the first handler: status 200,
empty body, no header. -/
def Ctx.request (ip path : String) : Ctx :=
  { ip := ip, path := path, status := 200, body := "", headers := [] }

/-- Decimal rendering of an integer, `strconv.Itoa`. -/
def Itoa (n : Int) : String := toString n

/-! ## Configuration -/

/-- The struct `Config`; a nil function field is `none`. -/
structure Config where
  Filter : Option (Ctx → Bool)
  Timeout : Int
  Max : Int
  Message : String
  StatusCode : Int
  Key : Option (Ctx → String)
  Handler : Option (Ctx → Ctx)

/-- The zero value of `Config`, the value of `var cfg Config`. -/
def Config.zero : Config :=
  { Filter := none, Timeout := 0, Max := 0, Message := "", StatusCode := 0,
    Key := none, Handler := none }

/-- State captured by the closure that `New` returns: the resolved
configuration and the two maps. -/
structure Limiter where
  cfg : Config
  hits : IntMap
  reset : IntMap

/-- Lines 49 to 52 of `New`: the zero value, or the first argument. -/
def given (config : List Config) : Config :=
  match config with
  | [] => Config.zero
  | c :: _ => c

/-- Lines 49 to 74 of `New`: pick the first argument, then fill the defaults. -/
def resolve (config : List Config) : Config :=
  let cfg : Config := given config
  let cfg : Config := if cfg.Timeout = 0 then { cfg with Timeout := 60 } else cfg
  let cfg : Config := if cfg.Max = 0 then { cfg with Max := 10 } else cfg
  let cfg : Config :=
    if cfg.Message = "" then
      { cfg with Message := "Too many requests, please try again later." }
    else cfg
  let cfg : Config := if cfg.StatusCode = 0 then { cfg with StatusCode := 429 } else cfg
  let cfg : Config := match cfg.Key with
    | none => { cfg with Key := some (fun c => c.IP) }
    | some _ => cfg
  let cfg : Config := match cfg.Handler with
    | none =>
      { cfg with Handler := some (fun c => (c.Status cfg.StatusCode).SendString cfg.Message) }
    | some _ => cfg
  cfg

/-- The constructor `New`: resolved configuration and two empty maps. -/
def New (config : List Config) : Limiter :=
  { cfg := resolve config, hits := IntMap.empty, reset := IntMap.empty }

/-! ## Machine integers -/

/-- The least value of Go `int` on a 64 bit platform. -/
def minInt : Int := -9223372036854775808

/-- The greatest value of Go `int` on a 64 bit platform. -/
def maxInt : Int := 9223372036854775807

/-- The value is one a Go `int` holds. -/
@[reducible] def isInt (n : Int) : Prop := minInt ≤ n ∧ n ≤ maxInt

/-- The result of `+` and `-` on Go `int`: the exact result reduced modulo
2^64 into the range of `int`. -/
def wrap (n : Int) : Int :=
  (n + 9223372036854775808) % 18446744073709551616 - 9223372036854775808

/-! ## The handler -/

/-- A call the middleware makes on the context. -/
inductive Call where
  | next : Call
  | handler : (Ctx → Ctx) → Call
  | set : String → String → Call

/-- Recognise `c.Next()`. -/
def Call.isNext : Call → Bool
  | Call.next => true
  | _ => false

/-- Recognise `cfg.Handler(c)`. -/
def Call.isHandler : Call → Bool
  | Call.handler _ => true
  | _ => false

/-- Recognise `c.Set(key, _)`. -/
def Call.isSet (key : String) : Call → Bool
  | Call.set k _ => k = key
  | _ => false

/-- Effect of one call on the context; `next` is the rest of the handler stack. -/
def Call.exec (next : Ctx → Ctx) : Call → Ctx → Ctx
  | Call.next, c => next c
  | Call.handler h, c => h c
  | Call.set k v, c => c.Set k v

/-- Effect of a list of calls, first to last. -/
def execAll (next : Ctx → Ctx) (calls : List Call) (c : Ctx) : Ctx :=
  calls.foldl (fun c call => call.exec next c) c

/-- The test `cfg.Filter != nil && cfg.Filter(c)` of line 106. -/
def bypass (cfg : Config) (c : Ctx) : Bool :=
  match cfg.Filter with
  | none => false
  | some f => f c

/-- Lines 112 to 123, the section under the mutex, over the integers and with
one value of the clock: count the hit, open the window when none is open, and
read back the count and the seconds to reset. `recordHit64` is the section on
machine integers with its two reads of the clock. -/
def recordHit (l : Limiter) (timestamp : Int) (key : String) : Limiter × Int × Int :=
  let hits := l.hits.set key (l.hits.get key + 1)
  let reset :=
    if l.reset.get key = 0 then l.reset.set key (timestamp + l.cfg.Timeout) else l.reset
  let hitCount := hits.get key
  let resetTime := reset.get key - timestamp
  ({ l with hits := hits, reset := reset }, hitCount, resetTime)

/-- Lines 104 to 141, the closure returned by `New`, over the integers and with
one value of the clock: the state after the request and the calls made on the
context. `serve64` is the closure on machine integers. -/
def serve (l : Limiter) (timestamp : Int) (c : Ctx) : Option (Limiter × List Call) :=
  if bypass l.cfg c then
    some (l, [Call.next])
  else
    match l.cfg.Key with
    | none => none
    | some keyFn =>
      let key := keyFn c
      let (l1, hitCount, resetTime) := recordHit l timestamp key
      let remaining := l.cfg.Max - hitCount
      if remaining < 0 then
        match l.cfg.Handler with
        | none => none
        | some h => some (l1, [Call.handler h, Call.set "Retry-After" (Itoa resetTime)])
      else
        some (l1, [Call.set "X-RateLimit-Limit" (Itoa l.cfg.Max),
                   Call.set "X-RateLimit-Remaining" (Itoa remaining),
                   Call.set "X-RateLimit-Reset" (Itoa resetTime),
                   Call.next])

/-- Lines 91 to 98, the body of the loop over the keys of the reset map. -/
def sweepKey (timestamp : Int) (l : Limiter) (key : String) : Limiter :=
  if l.reset.get key ≠ 0 ∧ timestamp ≥ l.reset.get key then
    { l with hits := l.hits.set key 0, reset := l.reset.set key 0 }
  else l

/-- Lines 90 to 99, one pass of the goroutine that resets expired keys. The
loop only overwrites entries, so it visits the keys the map had on entry. -/
def sweep (l : Limiter) (timestamp : Int) : Limiter :=
  l.reset.keys.foldl (sweepKey timestamp) l

/-- A sequence of requests served one after the other, each with the clock
value it observes: the final state and the calls of each request. -/
def serveAll (l : Limiter) : List (Int × Ctx) → Option (Limiter × List (List Call))
  | [] => some (l, [])
  | (timestamp, c) :: rest =>
    match serve l timestamp c with
    | none => none
    | some (l1, calls) =>
      match serveAll l1 rest with
      | none => none
      | some (l2, out) => some (l2, calls :: out)

/-- The request went on to the next handler. -/
def admitted (calls : List Call) : Bool := calls.any Call.isNext

/-- The request was handed to the rejection handler. -/
def rejected (calls : List Call) : Bool := calls.any Call.isHandler

/-- The handler registered by `Test_Concurrency` behind the limiter. -/
def helloTester (c : Ctx) : Ctx := c.Send "Hello tester!"

/-- Responses of a sequence of requests: each context after its calls ran. -/
def responses (next : Ctx → Ctx) (l : Limiter) (reqs : List (Int × Ctx)) :
    Option (List Ctx) :=
  match serveAll l reqs with
  | none => none
  | some (_, out) => some (List.zipWith (fun calls r => execAll next calls r.2) out reqs)

/-- The calls of an evaluation that is let through (lines 136 to 140). -/
def passCalls (cfg : Config) (hitCount resetTime : Int) : List Call :=
  [Call.set "X-RateLimit-Limit" (Itoa cfg.Max),
   Call.set "X-RateLimit-Remaining" (Itoa (cfg.Max - hitCount)),
   Call.set "X-RateLimit-Reset" (Itoa resetTime),
   Call.next]

/-- The calls of an evaluation that is turned down (lines 129 to 132). -/
def blockCalls (h : Ctx → Ctx) (resetTime : Int) : List Call :=
  [Call.handler h, Call.set "Retry-After" (Itoa resetTime)]

/-! ## The handler on machine integers -/

/-- Lines 112 to 123 as the machine runs them: `t117` and `t122` are the values
of `timestamp` read at lines 117 and 122, and the sum and the difference are
reduced to the range of `int`. The counter of line 114 is exact: it does not
reach 2^63. -/
def recordHit64 (l : Limiter) (t117 t122 : Int) (key : String) : Limiter × Int × Int :=
  let hits := l.hits.set key (l.hits.get key + 1)
  let reset :=
    if l.reset.get key = 0 then l.reset.set key (wrap (t117 + l.cfg.Timeout)) else l.reset
  let hitCount := hits.get key
  let resetTime := wrap (reset.get key - t122)
  ({ l with hits := hits, reset := reset }, hitCount, resetTime)

/-- Lines 104 to 141 as the machine runs them: `remaining` is the difference
of line 125 reduced to the range of `int`. -/
def serve64 (l : Limiter) (t117 t122 : Int) (c : Ctx) : Option (Limiter × List Call) :=
  if bypass l.cfg c then
    some (l, [Call.next])
  else
    match l.cfg.Key with
    | none => none
    | some keyFn =>
      let key := keyFn c
      let (l1, hitCount, resetTime) := recordHit64 l t117 t122 key
      let remaining := wrap (l.cfg.Max - hitCount)
      if remaining < 0 then
        match l.cfg.Handler with
        | none => none
        | some h => some (l1, [Call.handler h, Call.set "Retry-After" (Itoa resetTime)])
      else
        some (l1, [Call.set "X-RateLimit-Limit" (Itoa l.cfg.Max),
                   Call.set "X-RateLimit-Remaining" (Itoa remaining),
                   Call.set "X-RateLimit-Reset" (Itoa resetTime),
                   Call.next])

/-- The calls of lines 136 to 140 for given values of `remaining` and
`resetTime`. -/
def passCalls64 (cfg : Config) (remaining resetTime : Int) : List Call :=
  [Call.set "X-RateLimit-Limit" (Itoa cfg.Max),
   Call.set "X-RateLimit-Remaining" (Itoa remaining),
   Call.set "X-RateLimit-Reset" (Itoa resetTime),
   Call.next]

/-! ## Histories of the store -/

/-- One change of the store: a request served by the handler, with the values
of `timestamp` it reads at lines 117 and 122; one iteration of the loop of the
sweeper, or a whole pass of the sweeper, with the value of `timestamp` it
reads; or the end of the program, when the runtime finds the sweeper reading
the map outside the mutex while a handler writes it. The sweeper tests a key
before it takes the mutex; requests never change a `reset[key]` that is not 0,
so a test that held still holds when the mutex is taken. -/
inductive Event where
  | request : Int → Int → Ctx → Event
  | sweepKey : Int → String → Event
  | sweep : Int → Event
  | abort : Event

/-- The clock values an event reads. -/
def Event.clocks : Event → List Int
  | Event.request t117 t122 _ => [t117, t122]
  | Event.sweepKey t _ => [t]
  | Event.sweep t => [t]
  | Event.abort => []

/-- The event is a request. -/
def Event.isRequest : Event → Bool
  | Event.request _ _ _ => true
  | _ => false

/-- The guard of line 92 holds for `k` when the event is the sweeper looking
at `k`: the event sets `hits[k]` and `reset[k]` to 0. -/
def Event.resets (l : Limiter) (k : String) : Event → Bool
  | Event.sweepKey t key => decide (key = k ∧ l.reset.get k ≠ 0 ∧ t ≥ l.reset.get k)
  | Event.sweep t => decide (l.reset.get k ≠ 0 ∧ t ≥ l.reset.get k)
  | _ => false

/-- The store after one event; `none` when the handler panics or the runtime
ends the program. -/
def step (l : Limiter) : Event → Option Limiter
  | Event.request t117 t122 c =>
    match serve64 l t117 t122 c with
    | none => none
    | some (l1, _) => some l1
  | Event.sweepKey t key => some (sweepKey t l key)
  | Event.sweep t => some (sweep l t)
  | Event.abort => none

/-- The store after a list of events. -/
def run (l : Limiter) : List Event → Option Limiter
  | [] => some l
  | e :: es =>
    match step l e with
    | none => none
    | some l1 => run l1 es

/-- No event of the list resets `k`, each looked at in the state it meets. -/
def noReset (k : String) : Limiter → List Event → Bool
  | _, [] => true
  | l, e :: es =>
    !(e.resets l k) &&
      match step l e with
      | none => true
      | some l1 => noReset k l1 es

/-! ## Goroutines

The handler statement by statement, for requests served at the same time. The
mutex is a flag; a goroutine that finds it taken does not move. Only handlers
run in a world: the sweeper and what its reads outside the mutex can do to the
program are in `step`. -/

/-- The statement a goroutine that runs the handler is about to execute. -/
inductive Pc where
  | filter
  | lock
  | incr
  | window
  | hitCount
  | resetTime
  | unlock
  | respond
  | done
  deriving DecidableEq

/-- A goroutine that runs the handler: its context, where it stands, and its
local variables `key`, `hitCount`, `resetTime`; `calls` are the calls it has
made on the context. -/
structure Goroutine where
  c : Ctx
  pc : Pc
  key : String
  hitCount : Int
  resetTime : Int
  calls : List Call

/-- The limiter, the mutex and the goroutines serving requests. -/
structure World where
  l : Limiter
  locked : Bool
  gs : List Goroutine

/-- The goroutine is between `mux.Lock()` and `mux.Unlock()`. -/
def Pc.inCS : Pc → Bool
  | Pc.incr => true
  | Pc.window => true
  | Pc.hitCount => true
  | Pc.resetTime => true
  | Pc.unlock => true
  | _ => false

/-- The goroutine has executed `hits[key]++`. -/
def Pc.counted : Pc → Bool
  | Pc.window => true
  | Pc.hitCount => true
  | Pc.resetTime => true
  | Pc.unlock => true
  | Pc.respond => true
  | Pc.done => true
  | _ => false

/-- The goroutine has executed `hits[key]++` and not yet `hitCount := hits[key]`. -/
def Pc.pending : Pc → Bool
  | Pc.window => true
  | Pc.hitCount => true
  | _ => false

/-- The goroutine has executed `hitCount := hits[key]`. -/
def Pc.hasCount : Pc → Bool
  | Pc.resetTime => true
  | Pc.unlock => true
  | Pc.respond => true
  | Pc.done => true
  | _ => false

/-- One statement of the handler, run by goroutine `g` with the value of
`timestamp` it reads: lines 106 to 111 (the filter test and the key), 112, 114,
116 to 118, 120, 122, 123, and 125 to 140. The sum of line 117 and the
differences of lines 122 and 125 are reduced to the range of `int`. -/
def Goroutine.step (l : Limiter) (locked : Bool) (timestamp : Int) (g : Goroutine) :
    Option (Limiter × Bool × Goroutine) :=
  match g.pc with
  | Pc.filter =>
    if bypass l.cfg g.c then
      some (l, locked, { g with pc := Pc.done, calls := [Call.next] })
    else
      match l.cfg.Key with
      | none => none
      | some keyFn => some (l, locked, { g with pc := Pc.lock, key := keyFn g.c })
  | Pc.lock =>
    if locked then some (l, locked, g) else some (l, true, { g with pc := Pc.incr })
  | Pc.incr =>
    some ({ l with hits := l.hits.set g.key (l.hits.get g.key + 1) }, locked,
      { g with pc := Pc.window })
  | Pc.window =>
    some ((if l.reset.get g.key = 0 then
            { l with reset := l.reset.set g.key (wrap (timestamp + l.cfg.Timeout)) }
          else l), locked, { g with pc := Pc.hitCount })
  | Pc.hitCount =>
    some (l, locked, { g with pc := Pc.resetTime, hitCount := l.hits.get g.key })
  | Pc.resetTime =>
    some (l, locked,
      { g with pc := Pc.unlock, resetTime := wrap (l.reset.get g.key - timestamp) })
  | Pc.unlock => some (l, false, { g with pc := Pc.respond })
  | Pc.respond =>
    if wrap (l.cfg.Max - g.hitCount) < 0 then
      match l.cfg.Handler with
      | none => none
      | some h =>
        some (l, locked, { g with pc := Pc.done,
                                  calls := [Call.handler h,
                                            Call.set "Retry-After" (Itoa g.resetTime)] })
    else
      some (l, locked,
        { g with pc := Pc.done,
                 calls := [Call.set "X-RateLimit-Limit" (Itoa l.cfg.Max),
                           Call.set "X-RateLimit-Remaining"
                             (Itoa (wrap (l.cfg.Max - g.hitCount))),
                           Call.set "X-RateLimit-Reset" (Itoa g.resetTime),
                           Call.next] })
  | Pc.done => some (l, locked, g)

/-- Goroutine number `i` runs one statement. -/
def World.step (w : World) (i : Nat) (timestamp : Int) : Option World :=
  match w.gs[i]? with
  | none => some w
  | some g =>
    match g.step w.l w.locked timestamp with
    | none => none
    | some (l, locked, g1) => some { l := l, locked := locked, gs := w.gs.set i g1 }

/-- A schedule: which goroutine runs next, and the clock value it reads. -/
def World.run (w : World) : List (Nat × Int) → Option World
  | [] => some w
  | (i, timestamp) :: rest =>
    match w.step i timestamp with
    | none => none
    | some w1 => w1.run rest

/-- A goroutine that has just been handed the request `c`. -/
def Goroutine.start (c : Ctx) : Goroutine :=
  { c := c, pc := Pc.filter, key := "", hitCount := 0, resetTime := 0, calls := [] }

/-- Requests issued at the same time: one goroutine each, the mutex free. -/
def World.start (l : Limiter) (cs : List Ctx) : World :=
  { l := l, locked := false, gs := cs.map Goroutine.start }

/-- Every goroutine has returned from the handler. -/
def World.finished (w : World) : Bool := w.gs.all (fun g => decide (g.pc = Pc.done))

/-- What one statement of goroutine `g` changes, as far as the count of the
key `k` is concerned: `l`, `locked`, `g` before and `l1`, `locked1`, `g1` after. -/
structure Delta (cfg : Config) (k : String) (l : Limiter) (locked : Bool) (g : Goroutine)
    (l1 : Limiter) (locked1 : Bool) (g1 : Goroutine) : Prop where
  cfg_eq : l1.cfg = l.cfg
  ctx_eq : g1.c = g.c
  key_ok : g1.pc ≠ Pc.filter → g1.key = k
  mutex : (if locked1 then 1 else 0 : Nat) + (if g.pc.inCS then 1 else 0)
    = (if locked then 1 else 0) + (if g1.pc.inCS then 1 else 0)
  hits : l1.hits.get k + (if g.pc.counted then 1 else 0 : Int)
    = l.hits.get k + (if g1.pc.counted then 1 else 0)
  pend : l.hits.get k + (if g1.pc.pending then 1 else 0 : Int)
    ≤ l1.hits.get k + (if g.pc.pending then 1 else 0)
  count : g1.pc.hasCount = true →
    (g.pc.hasCount = true ∧ g1.hitCount = g.hitCount) ∨
    (g.pc = Pc.hitCount ∧ g1.hitCount = l.hits.get k ∧ l1.hits.get k = l.hits.get k)
  answer : g1.pc = Pc.done →
    (g.pc = Pc.done ∧ g1.calls = g.calls ∧ g1.hitCount = g.hitCount) ∨
    ((admitted g1.calls = true ↔ 0 ≤ wrap (cfg.Max - g1.hitCount)) ∧
      (rejected g1.calls = true ↔ wrap (cfg.Max - g1.hitCount) < 0))

/-- What holds in every world that `n` requests of one key `k`, none of them
bypassed, reach from a store with `hits[k] = 0`. -/
structure Inv (cfg : Config) (keyFn : Ctx → String) (k : String) (n : Nat) (w : World) :
    Prop where
  cfg_eq : w.l.cfg = cfg
  len : w.gs.length = n
  req : ∀ g ∈ w.gs, bypass cfg g.c = false ∧ keyFn g.c = k ∧ (g.pc ≠ Pc.filter → g.key = k)
  mutex : w.gs.countP (fun g => g.pc.inCS) = if w.locked then 1 else 0
  hits : w.l.hits.get k = (w.gs.countP (fun g => g.pc.counted) : Nat)
  bound : ∀ g ∈ w.gs, g.pc.hasCount = true →
    1 ≤ g.hitCount ∧
    g.hitCount + (w.gs.countP (fun g => g.pc.pending) : Nat) ≤ w.l.hits.get k
  distinct : ∀ (i j : Nat) (gi gj : Goroutine), w.gs[i]? = some gi → w.gs[j]? = some gj →
    i ≠ j → gi.pc.hasCount = true → gj.pc.hasCount = true → gi.hitCount ≠ gj.hitCount
  answer : ∀ g ∈ w.gs, g.pc = Pc.done →
    (admitted g.calls = true ↔ 0 ≤ wrap (cfg.Max - g.hitCount)) ∧
    (rejected g.calls = true ↔ wrap (cfg.Max - g.hitCount) < 0)

/-! ## Maps: reading after writing -/

theorem lookup_assign_same (es : List (String × Int)) (key : String) (v : Int) :
    lookup (assign es key v) key = v := by
  induction es with
  | nil => simp [assign, lookup]
  | cons e rest ih =>
    obtain ⟨k, w⟩ := e
    by_cases hk : k = key
    · simp [assign, lookup, hk]
    · simp [assign, lookup, hk, ih]

theorem lookup_assign_other (es : List (String × Int)) (key other : String) (v : Int)
    (hne : key ≠ other) : lookup (assign es key v) other = lookup es other := by
  induction es with
  | nil => simp [assign, lookup, hne]
  | cons e rest ih =>
    obtain ⟨k, w⟩ := e
    by_cases hk : k = key
    · subst hk
      simp [assign, lookup, hne]
    · by_cases hko : k = other
      · subst hko
        simp [assign, lookup, hk]
      · simp [assign, lookup, hk, hko, ih]

theorem IntMap.get_set_same (m : IntMap) (key : String) (v : Int) :
    (m.set key v).get key = v :=
  lookup_assign_same m.entries key v

theorem IntMap.get_set_other (m : IntMap) (key other : String) (v : Int)
    (hne : key ≠ other) : (m.set key v).get other = m.get other :=
  lookup_assign_other m.entries key other v hne

theorem IntMap.get_empty (key : String) : IntMap.empty.get key = 0 := rfl

/-! ## Configuration: what `New` resolves -/

theorem resolve_Timeout (config : List Config) :
    (resolve config).Timeout =
      if (given config).Timeout = 0 then 60 else (given config).Timeout := by
  unfold resolve
  generalize given config = g
  obtain ⟨F, T, M, Msg, SC, K, H⟩ := g
  cases K <;> cases H <;> by_cases h1 : T = 0 <;> by_cases h2 : M = 0 <;>
    by_cases h3 : Msg = "" <;> by_cases h4 : SC = 0 <;> simp [h1, h2, h3, h4]

theorem resolve_Max (config : List Config) :
    (resolve config).Max = if (given config).Max = 0 then 10 else (given config).Max := by
  unfold resolve
  generalize given config = g
  obtain ⟨F, T, M, Msg, SC, K, H⟩ := g
  cases K <;> cases H <;> by_cases h1 : T = 0 <;> by_cases h2 : M = 0 <;>
    by_cases h3 : Msg = "" <;> by_cases h4 : SC = 0 <;> simp [h1, h2, h3, h4]

theorem resolve_StatusCode (config : List Config) :
    (resolve config).StatusCode =
      if (given config).StatusCode = 0 then 429 else (given config).StatusCode := by
  unfold resolve
  generalize given config = g
  obtain ⟨F, T, M, Msg, SC, K, H⟩ := g
  cases K <;> cases H <;> by_cases h1 : T = 0 <;> by_cases h2 : M = 0 <;>
    by_cases h3 : Msg = "" <;> by_cases h4 : SC = 0 <;> simp [h1, h2, h3, h4]

theorem resolve_Message (config : List Config) :
    (resolve config).Message =
      if (given config).Message = "" then "Too many requests, please try again later."
      else (given config).Message := by
  unfold resolve
  generalize given config = g
  obtain ⟨F, T, M, Msg, SC, K, H⟩ := g
  cases K <;> cases H <;> by_cases h1 : T = 0 <;> by_cases h2 : M = 0 <;>
    by_cases h3 : Msg = "" <;> by_cases h4 : SC = 0 <;> simp [h1, h2, h3, h4]

theorem resolve_Filter (config : List Config) :
    (resolve config).Filter = (given config).Filter := by
  unfold resolve
  generalize given config = g
  obtain ⟨F, T, M, Msg, SC, K, H⟩ := g
  cases K <;> cases H <;> by_cases h1 : T = 0 <;> by_cases h2 : M = 0 <;>
    by_cases h3 : Msg = "" <;> by_cases h4 : SC = 0 <;> simp [h1, h2, h3, h4]

theorem resolve_Key (config : List Config) :
    (resolve config).Key =
      match (given config).Key with
      | none => some (fun c => c.IP)
      | some f => some f := by
  unfold resolve
  generalize given config = g
  obtain ⟨F, T, M, Msg, SC, K, H⟩ := g
  cases K <;> cases H <;> by_cases h1 : T = 0 <;> by_cases h2 : M = 0 <;>
    by_cases h3 : Msg = "" <;> by_cases h4 : SC = 0 <;> simp [h1, h2, h3, h4]

theorem resolve_Handler (config : List Config) :
    (resolve config).Handler =
      match (given config).Handler with
      | none =>
        some (fun c => (c.Status (resolve config).StatusCode).SendString (resolve config).Message)
      | some h => some h := by
  unfold resolve
  generalize given config = g
  obtain ⟨F, T, M, Msg, SC, K, H⟩ := g
  cases K <;> cases H <;> by_cases h1 : T = 0 <;> by_cases h2 : M = 0 <;>
    by_cases h3 : Msg = "" <;> by_cases h4 : SC = 0 <;> simp [h1, h2, h3, h4]

theorem given_nil : given [] = Config.zero := rfl

theorem given_cons (c : Config) (rest : List Config) : given (c :: rest) = c := rfl

/-! ## One evaluation -/

theorem recordHit_cfg (l : Limiter) (timestamp : Int) (key : String) :
    (recordHit l timestamp key).1.cfg = l.cfg := rfl

theorem recordHit_hits_same (l : Limiter) (timestamp : Int) (key : String) :
    (recordHit l timestamp key).1.hits.get key = l.hits.get key + 1 := by
  simp [recordHit, IntMap.get_set_same]

theorem recordHit_hits_other (l : Limiter) (timestamp : Int) (key other : String)
    (hne : key ≠ other) :
    (recordHit l timestamp key).1.hits.get other = l.hits.get other := by
  simp [recordHit, IntMap.get_set_other _ _ _ _ hne]

theorem recordHit_reset_same (l : Limiter) (timestamp : Int) (key : String) :
    (recordHit l timestamp key).1.reset.get key =
      if l.reset.get key = 0 then timestamp + l.cfg.Timeout else l.reset.get key := by
  by_cases h0 : l.reset.get key = 0
  · simp [recordHit, h0, IntMap.get_set_same]
  · simp [recordHit, h0]

theorem recordHit_reset_other (l : Limiter) (timestamp : Int) (key other : String)
    (hne : key ≠ other) :
    (recordHit l timestamp key).1.reset.get other = l.reset.get other := by
  by_cases h0 : l.reset.get key = 0
  · simp [recordHit, h0, IntMap.get_set_other _ _ _ _ hne]
  · simp [recordHit, h0]

theorem recordHit_hitCount (l : Limiter) (timestamp : Int) (key : String) :
    (recordHit l timestamp key).2.1 = l.hits.get key + 1 := by
  simp [recordHit, IntMap.get_set_same]

theorem recordHit_resetTime (l : Limiter) (timestamp : Int) (key : String) :
    (recordHit l timestamp key).2.2 =
      (recordHit l timestamp key).1.reset.get key - timestamp := rfl

theorem serve_bypass (l : Limiter) (timestamp : Int) (c : Ctx)
    (hb : bypass l.cfg c = true) : serve l timestamp c = some (l, [Call.next]) := by
  simp [serve, hb]

theorem serve_pass (l : Limiter) (timestamp : Int) (c : Ctx) (keyFn : Ctx → String)
    (hK : l.cfg.Key = some keyFn) (hb : bypass l.cfg c = false)
    (hrem : 0 ≤ l.cfg.Max - (l.hits.get (keyFn c) + 1)) :
    serve l timestamp c =
      some ((recordHit l timestamp (keyFn c)).1,
        passCalls l.cfg (l.hits.get (keyFn c) + 1)
          ((recordHit l timestamp (keyFn c)).1.reset.get (keyFn c) - timestamp)) := by
  have hc := recordHit_hitCount l timestamp (keyFn c)
  have hn : ¬ l.cfg.Max - (l.hits.get (keyFn c) + 1) < 0 := by omega
  simp only [serve, hb, hK, hc]
  simp [hn, passCalls, recordHit_resetTime]

theorem serve_block (l : Limiter) (timestamp : Int) (c : Ctx) (keyFn : Ctx → String)
    (h : Ctx → Ctx) (hK : l.cfg.Key = some keyFn) (hH : l.cfg.Handler = some h)
    (hb : bypass l.cfg c = false)
    (hrem : l.cfg.Max - (l.hits.get (keyFn c) + 1) < 0) :
    serve l timestamp c =
      some ((recordHit l timestamp (keyFn c)).1,
        blockCalls h
          ((recordHit l timestamp (keyFn c)).1.reset.get (keyFn c) - timestamp)) := by
  have hc := recordHit_hitCount l timestamp (keyFn c)
  simp only [serve, hb, hK, hc]
  simp [hrem, hH, blockCalls, recordHit_resetTime]

/-! ## Runs of evaluations for one key -/

theorem admitted_passCalls (cfg : Config) (hitCount resetTime : Int) :
    admitted (passCalls cfg hitCount resetTime) = true ∧
    rejected (passCalls cfg hitCount resetTime) = false := by
  constructor <;> rfl

theorem rejected_blockCalls (h : Ctx → Ctx) (resetTime : Int) :
    admitted (blockCalls h resetTime) = false ∧
    rejected (blockCalls h resetTime) = true := by
  constructor <;> rfl

theorem serveAll_same_key (cfg : Config) (keyFn : Ctx → String) (h : Ctx → Ctx)
    (hK : cfg.Key = some keyFn) (hH : cfg.Handler = some h) (k : String) :
    ∀ (reqs : List (Int × Ctx)) (l : Limiter), l.cfg = cfg →
      (∀ r ∈ reqs, bypass cfg r.2 = false ∧ keyFn r.2 = k) →
      ∃ (l1 : Limiter) (outs : List (List Call)),
        serveAll l reqs = some (l1, outs) ∧ l1.cfg = cfg ∧
        outs.length = reqs.length ∧
        l1.hits.get k = l.hits.get k + reqs.length ∧
        ∀ (i : Nat) (hi : i < outs.length),
          (l.hits.get k + i + 1 ≤ cfg.Max →
            ∃ t : Int, outs[i] = passCalls cfg (l.hits.get k + i + 1) t) ∧
          (cfg.Max < l.hits.get k + i + 1 → ∃ t : Int, outs[i] = blockCalls h t) := by
  intro reqs
  induction reqs with
  | nil =>
    intro l hl _
    exact ⟨l, [], rfl, hl, rfl, by simp, fun i hi => absurd hi (by simp)⟩
  | cons r rest ih =>
    intro l hl hreqs
    obtain ⟨hb, hkey⟩ := hreqs r (List.mem_cons_self _ _)
    have hrest : ∀ x ∈ rest, bypass cfg x.2 = false ∧ keyFn x.2 = k :=
      fun x hx => hreqs x (List.mem_cons_of_mem _ hx)
    have hK1 : l.cfg.Key = some keyFn := by rw [hl]; exact hK
    have hH1 : l.cfg.Handler = some h := by rw [hl]; exact hH
    have hb1 : bypass l.cfg r.2 = false := by rw [hl]; exact hb
    have hcfg1 : (recordHit l r.1 k).1.cfg = cfg := by rw [recordHit_cfg]; exact hl
    have hhits1 := recordHit_hits_same l r.1 k
    obtain ⟨l2, outs, hrun, hcfg2, hlen, hhits2, hout⟩ := ih (recordHit l r.1 k).1 hcfg1 hrest
    have htail : ∀ (i : Nat) (hi : i < outs.length),
        (l.hits.get k + (i + 1 : Nat) + 1 ≤ cfg.Max →
          ∃ t : Int, outs[i] = passCalls cfg (l.hits.get k + (i + 1 : Nat) + 1) t) ∧
        (cfg.Max < l.hits.get k + (i + 1 : Nat) + 1 → ∃ t : Int, outs[i] = blockCalls h t) := by
      intro i hi
      have hidx : l.hits.get k + ((i + 1 : Nat) : Int) + 1
          = (recordHit l r.1 k).1.hits.get k + (i : Int) + 1 := by
        rw [hhits1]; push_cast; ring
      rw [hidx]
      exact hout i hi
    by_cases hrem : l.cfg.Max - (l.hits.get (keyFn r.2) + 1) < 0
    · have hs := serve_block l r.1 r.2 keyFn h hK1 hH1 hb1 hrem
      rw [hkey] at hs hrem
      rw [hl] at hrem
      refine ⟨l2, blockCalls h ((recordHit l r.1 k).1.reset.get k - r.1) :: outs, ?_, hcfg2,
        by simp [hlen], ?_, ?_⟩
      · simp [serveAll, hs, hrun]
      · rw [hhits2, hhits1, List.length_cons]; push_cast; ring
      · intro i hi
        cases i with
        | zero =>
          refine ⟨fun hle => ?_, fun _ => ⟨_, rfl⟩⟩
          exfalso
          simp at hle
          omega
        | succ j => exact htail j (by simpa using hi)
    · have hrem2 : 0 ≤ l.cfg.Max - (l.hits.get (keyFn r.2) + 1) := by omega
      have hs := serve_pass l r.1 r.2 keyFn hK1 hb1 hrem2
      rw [hkey] at hs hrem2
      rw [hl] at hrem2 hs
      refine ⟨l2, passCalls cfg (l.hits.get k + 1) ((recordHit l r.1 k).1.reset.get k - r.1)
        :: outs, ?_, hcfg2, by simp [hlen], ?_, ?_⟩
      · simp [serveAll, hs, hrun]
      · rw [hhits2, hhits1, List.length_cons]; push_cast; ring
      · intro i hi
        cases i with
        | zero =>
          refine ⟨fun _ => ⟨(recordHit l r.1 k).1.reset.get k - r.1, by simp⟩, fun hlt => ?_⟩
          exfalso
          simp at hlt
          omega
        | succ j => exact htail j (by simpa using hi)

theorem countP_threshold {α : Type} (p : α → Bool) (m : Int) :
    ∀ (outs : List α) (j : Int),
      (∀ (i : Nat) (hi : i < outs.length), p outs[i] = true ↔ j + i + 1 ≤ m) →
      (outs.countP p : Int) = max 0 (min (m - j) outs.length) := by
  intro outs
  induction outs with
  | nil => intro j _; simp
  | cons a rest ih =>
    intro j hp
    have h0 := hp 0 (by simp)
    have hrest : ∀ (i : Nat) (hi : i < rest.length), p rest[i] = true ↔ (j + 1) + i + 1 ≤ m := by
      intro i hi
      have := hp (i + 1) (by simpa using hi)
      simp only [List.getElem_cons_succ] at this
      rw [this]; push_cast
      constructor <;> intro hh <;> omega
    have hc := ih (j + 1) hrest
    simp only [List.getElem_cons_zero] at h0
    rw [List.countP_cons, List.length_cons]
    by_cases hpa : p a = true
    · have := h0.mp hpa
      simp only [hpa, if_true]
      push_cast
      rw [hc]
      simp at this
      omega
    · have : ¬ (j + (0 : Nat) + 1 ≤ m) := fun hh => hpa (h0.mpr hh)
      simp only [hpa]
      push_cast
      rw [hc]
      simp at this
      omega

/-! ## The sweeper -/

theorem lookup_ne_zero_mem (es : List (String × Int)) (key : String)
    (hne : lookup es key ≠ 0) : key ∈ es.map Prod.fst := by
  induction es with
  | nil => exact absurd rfl hne
  | cons e rest ih =>
    obtain ⟨k, w⟩ := e
    by_cases hk : k = key
    · simp [hk]
    · simp only [lookup, hk, if_false] at hne
      simp [ih hne]

theorem IntMap.mem_keys_of_get_ne_zero (m : IntMap) (key : String) (hne : m.get key ≠ 0) :
    key ∈ m.keys :=
  lookup_ne_zero_mem m.entries key hne

theorem sweepKey_cfg (timestamp : Int) (l : Limiter) (key : String) :
    (sweepKey timestamp l key).cfg = l.cfg := by
  unfold sweepKey
  split <;> rfl

theorem sweepKey_same (timestamp : Int) (l : Limiter) (key : String) :
    (sweepKey timestamp l key).hits.get key =
        (if l.reset.get key ≠ 0 ∧ timestamp ≥ l.reset.get key then 0 else l.hits.get key) ∧
    (sweepKey timestamp l key).reset.get key =
        (if l.reset.get key ≠ 0 ∧ timestamp ≥ l.reset.get key then 0 else l.reset.get key) := by
  unfold sweepKey
  split <;> simp [IntMap.get_set_same]

theorem sweepKey_other (timestamp : Int) (l : Limiter) (key other : String)
    (hne : key ≠ other) :
    (sweepKey timestamp l key).hits.get other = l.hits.get other ∧
    (sweepKey timestamp l key).reset.get other = l.reset.get other := by
  unfold sweepKey
  split <;> simp [IntMap.get_set_other _ _ _ _ hne]

theorem foldl_sweepKey_cfg (timestamp : Int) :
    ∀ (ks : List String) (l : Limiter), (ks.foldl (sweepKey timestamp) l).cfg = l.cfg := by
  intro ks
  induction ks with
  | nil => intro l; rfl
  | cons a rest ih =>
    intro l
    rw [List.foldl_cons, ih, sweepKey_cfg]

theorem foldl_sweepKey_get (timestamp : Int) (k : String) :
    ∀ (ks : List String) (l : Limiter),
      (ks.foldl (sweepKey timestamp) l).hits.get k =
          (if k ∈ ks ∧ l.reset.get k ≠ 0 ∧ timestamp ≥ l.reset.get k then 0
           else l.hits.get k) ∧
      (ks.foldl (sweepKey timestamp) l).reset.get k =
          (if k ∈ ks ∧ l.reset.get k ≠ 0 ∧ timestamp ≥ l.reset.get k then 0
           else l.reset.get k) := by
  intro ks
  induction ks with
  | nil => intro l; simp
  | cons a rest ih =>
    intro l
    rw [List.foldl_cons]
    obtain ⟨ihh, ihr⟩ := ih (sweepKey timestamp l a)
    rw [ihh, ihr]
    by_cases hak : a = k
    · subst hak
      obtain ⟨hh, hr⟩ := sweepKey_same timestamp l a
      rw [hh, hr]
      by_cases hc : l.reset.get a ≠ 0 ∧ timestamp ≥ l.reset.get a
      · simp [hc]
      · simp [hc]
    · obtain ⟨hh, hr⟩ := sweepKey_other timestamp l a k hak
      rw [hh, hr]
      have hka : ¬ k = a := fun e => hak e.symm
      simp [hka]

theorem sweep_cfg (l : Limiter) (timestamp : Int) : (sweep l timestamp).cfg = l.cfg :=
  foldl_sweepKey_cfg timestamp l.reset.keys l

theorem sweep_get (l : Limiter) (timestamp : Int) (k : String) :
    (sweep l timestamp).hits.get k =
        (if l.reset.get k ≠ 0 ∧ timestamp ≥ l.reset.get k then 0 else l.hits.get k) ∧
    (sweep l timestamp).reset.get k =
        (if l.reset.get k ≠ 0 ∧ timestamp ≥ l.reset.get k then 0 else l.reset.get k) := by
  obtain ⟨hh, hr⟩ := foldl_sweepKey_get timestamp k l.reset.keys l
  unfold sweep
  rw [hh, hr]
  by_cases hc : l.reset.get k ≠ 0 ∧ timestamp ≥ l.reset.get k
  · have hmem := IntMap.mem_keys_of_get_ne_zero l.reset k hc.1
    simp [hc, hmem]
  · have hc2 : ¬ (k ∈ l.reset.keys ∧ l.reset.get k ≠ 0 ∧ timestamp ≥ l.reset.get k) :=
      fun hh => hc hh.2
    rw [if_neg hc, if_neg hc, if_neg hc2, if_neg hc2]
    exact ⟨rfl, rfl⟩

/-! ## Responses -/

theorem execAll_passCalls_helloTester (cfg : Config) (hitCount resetTime : Int) (c : Ctx) :
    (execAll helloTester (passCalls cfg hitCount resetTime) c).status = c.status ∧
    (execAll helloTester (passCalls cfg hitCount resetTime) c).body = "Hello tester!" := by
  constructor <;> rfl

theorem execAll_blockCalls_default (next : Ctx → Ctx) (code : Int) (msg : String)
    (resetTime : Int) (c : Ctx) :
    (execAll next (blockCalls (fun x => (x.Status code).SendString msg) resetTime) c).status
      = code ∧
    (execAll next (blockCalls (fun x => (x.Status code).SendString msg) resetTime) c).body
      = msg := by
  constructor <;> rfl

theorem resolve_Max_only (m : Int) (hm : m ≠ 0) :
    (resolve [{ Config.zero with Max := m }]).Key = some (fun c => c.IP) ∧
    (resolve [{ Config.zero with Max := m }]).Handler =
      some (fun c => (c.Status 429).SendString "Too many requests, please try again later.") ∧
    (resolve [{ Config.zero with Max := m }]).Max = m ∧
    (resolve [{ Config.zero with Max := m }]).Timeout = 60 ∧
    (∀ c : Ctx, bypass (resolve [{ Config.zero with Max := m }]) c = false) := by
  refine ⟨?_, ?_, ?_, ?_, ?_⟩
  · rw [resolve_Key]; rfl
  · rw [resolve_Handler, resolve_StatusCode, resolve_Message]; rfl
  · rw [resolve_Max]; simp [given, hm]
  · rw [resolve_Timeout]; rfl
  · intro c
    unfold bypass
    rw [resolve_Filter]; rfl

/-! ## Machine integers: reduction to the range -/

theorem wrap_of_isInt (n : Int) (h : isInt n) : wrap n = n := by
  simp only [isInt, minInt, maxInt] at h
  unfold wrap
  omega

theorem wrap_isInt (n : Int) : isInt (wrap n) := by
  simp only [isInt, minInt, maxInt]
  unfold wrap
  omega

theorem wrap_sub_wrap (a b : Int) : wrap (wrap a - b) = wrap (a - b) := by
  unfold wrap
  omega

theorem wrap_eq_iff (a b : Int) (hb : isInt b) :
    wrap a = b ↔ (a - b) % 18446744073709551616 = 0 := by
  simp only [isInt, minInt, maxInt] at hb
  unfold wrap
  omega

/-! ## One evaluation on machine integers -/

theorem recordHit64_cfg (l : Limiter) (t117 t122 : Int) (key : String) :
    (recordHit64 l t117 t122 key).1.cfg = l.cfg := rfl

theorem recordHit64_hits_same (l : Limiter) (t117 t122 : Int) (key : String) :
    (recordHit64 l t117 t122 key).1.hits.get key = l.hits.get key + 1 := by
  simp [recordHit64, IntMap.get_set_same]

theorem recordHit64_hits_other (l : Limiter) (t117 t122 : Int) (key other : String)
    (hne : key ≠ other) :
    (recordHit64 l t117 t122 key).1.hits.get other = l.hits.get other := by
  simp [recordHit64, IntMap.get_set_other _ _ _ _ hne]

theorem recordHit64_reset_same (l : Limiter) (t117 t122 : Int) (key : String) :
    (recordHit64 l t117 t122 key).1.reset.get key =
      if l.reset.get key = 0 then wrap (t117 + l.cfg.Timeout) else l.reset.get key := by
  by_cases h0 : l.reset.get key = 0
  · simp [recordHit64, h0, IntMap.get_set_same]
  · simp [recordHit64, h0]

theorem recordHit64_reset_other (l : Limiter) (t117 t122 : Int) (key other : String)
    (hne : key ≠ other) :
    (recordHit64 l t117 t122 key).1.reset.get other = l.reset.get other := by
  by_cases h0 : l.reset.get key = 0
  · simp [recordHit64, h0, IntMap.get_set_other _ _ _ _ hne]
  · simp [recordHit64, h0]

theorem recordHit64_hitCount (l : Limiter) (t117 t122 : Int) (key : String) :
    (recordHit64 l t117 t122 key).2.1 = l.hits.get key + 1 := by
  simp [recordHit64, IntMap.get_set_same]

theorem recordHit64_resetTime (l : Limiter) (t117 t122 : Int) (key : String) :
    (recordHit64 l t117 t122 key).2.2 =
      wrap ((recordHit64 l t117 t122 key).1.reset.get key - t122) := rfl

theorem admitted_passCalls64 (cfg : Config) (remaining resetTime : Int) :
    admitted (passCalls64 cfg remaining resetTime) = true ∧
    rejected (passCalls64 cfg remaining resetTime) = false := by
  constructor <;> rfl

theorem serve64_bypass (l : Limiter) (t117 t122 : Int) (c : Ctx)
    (hb : bypass l.cfg c = true) : serve64 l t117 t122 c = some (l, [Call.next]) := by
  simp [serve64, hb]

theorem serve64_pass (l : Limiter) (t117 t122 : Int) (c : Ctx) (keyFn : Ctx → String)
    (hK : l.cfg.Key = some keyFn) (hb : bypass l.cfg c = false)
    (hrem : 0 ≤ wrap (l.cfg.Max - (l.hits.get (keyFn c) + 1))) :
    serve64 l t117 t122 c =
      some ((recordHit64 l t117 t122 (keyFn c)).1,
        passCalls64 l.cfg (wrap (l.cfg.Max - (l.hits.get (keyFn c) + 1)))
          (wrap ((recordHit64 l t117 t122 (keyFn c)).1.reset.get (keyFn c) - t122))) := by
  have hc := recordHit64_hitCount l t117 t122 (keyFn c)
  have hn : ¬ wrap (l.cfg.Max - (l.hits.get (keyFn c) + 1)) < 0 := by omega
  simp only [serve64, hb, hK, hc]
  simp [hn, passCalls64, recordHit64_resetTime]

theorem serve64_block (l : Limiter) (t117 t122 : Int) (c : Ctx) (keyFn : Ctx → String)
    (h : Ctx → Ctx) (hK : l.cfg.Key = some keyFn) (hH : l.cfg.Handler = some h)
    (hb : bypass l.cfg c = false)
    (hrem : wrap (l.cfg.Max - (l.hits.get (keyFn c) + 1)) < 0) :
    serve64 l t117 t122 c =
      some ((recordHit64 l t117 t122 (keyFn c)).1,
        blockCalls h
          (wrap ((recordHit64 l t117 t122 (keyFn c)).1.reset.get (keyFn c) - t122))) := by
  have hc := recordHit64_hitCount l t117 t122 (keyFn c)
  simp only [serve64, hb, hK, hc]
  simp [hrem, hH, blockCalls, recordHit64_resetTime]

theorem serve64_state (l : Limiter) (t117 t122 : Int) (c : Ctx) (l1 : Limiter)
    (calls : List Call) (hs : serve64 l t117 t122 c = some (l1, calls)) :
    (bypass l.cfg c = true ∧ l1 = l) ∨
    ∃ keyFn : Ctx → String, l.cfg.Key = some keyFn ∧ bypass l.cfg c = false ∧
      l1 = (recordHit64 l t117 t122 (keyFn c)).1 := by
  by_cases hb : bypass l.cfg c = true
  · rw [serve64_bypass l t117 t122 c hb] at hs
    simp only [Option.some.injEq, Prod.mk.injEq] at hs
    exact Or.inl ⟨hb, hs.1.symm⟩
  · have hb0 : bypass l.cfg c = false := by simpa using hb
    right
    cases hK : l.cfg.Key with
    | none => simp [serve64, hb0, hK] at hs
    | some keyFn =>
      refine ⟨keyFn, rfl, hb0, ?_⟩
      by_cases hrem : wrap (l.cfg.Max - (l.hits.get (keyFn c) + 1)) < 0
      · cases hH : l.cfg.Handler with
        | none =>
          have hc := recordHit64_hitCount l t117 t122 (keyFn c)
          simp only [serve64, hb0, hK, hc] at hs
          simp [hrem, hH] at hs
        | some h =>
          rw [serve64_block l t117 t122 c keyFn h hK hH hb0 hrem] at hs
          simp only [Option.some.injEq, Prod.mk.injEq] at hs
          exact hs.1.symm
      · rw [serve64_pass l t117 t122 c keyFn hK hb0 (by omega)] at hs
        simp only [Option.some.injEq, Prod.mk.injEq] at hs
        exact hs.1.symm

theorem serve64_total (l : Limiter) (t117 t122 : Int) (c : Ctx) (keyFn : Ctx → String)
    (h : Ctx → Ctx) (hK : l.cfg.Key = some keyFn) (hH : l.cfg.Handler = some h) :
    ∃ (l1 : Limiter) (calls : List Call), serve64 l t117 t122 c = some (l1, calls) := by
  by_cases hb : bypass l.cfg c = true
  · exact ⟨_, _, serve64_bypass l t117 t122 c hb⟩
  · have hb0 : bypass l.cfg c = false := by simpa using hb
    by_cases hrem : wrap (l.cfg.Max - (l.hits.get (keyFn c) + 1)) < 0
    · exact ⟨_, _, serve64_block l t117 t122 c keyFn h hK hH hb0 hrem⟩
    · exact ⟨_, _, serve64_pass l t117 t122 c keyFn hK hb0 (by omega)⟩

/-- The handler on machine integers is the handler on the integers when both
reads of the clock give the same value and no operation leaves the range of
`int`. -/
theorem serve64_eq_serve (l : Limiter) (t : Int) (c : Ctx) (keyFn : Ctx → String)
    (hK : l.cfg.Key = some keyFn)
    (h125 : isInt (l.cfg.Max - (l.hits.get (keyFn c) + 1)))
    (h117 : l.reset.get (keyFn c) = 0 → isInt (t + l.cfg.Timeout))
    (h122 : isInt ((recordHit l t (keyFn c)).1.reset.get (keyFn c) - t)) :
    serve64 l t t c = serve l t c := by
  have hrec : recordHit64 l t t (keyFn c) = recordHit l t (keyFn c) := by
    by_cases h0 : l.reset.get (keyFn c) = 0
    · have hw := wrap_of_isInt _ (h117 h0)
      have h122b : isInt ((recordHit l t (keyFn c)).1.reset.get (keyFn c) - t) := h122
      rw [recordHit_reset_same, if_pos h0] at h122b
      have e : t + l.cfg.Timeout - t = l.cfg.Timeout := by omega
      rw [e] at h122b
      simp [recordHit64, recordHit, h0, hw, IntMap.get_set_same, wrap_of_isInt _ h122b]
    · have h122b : isInt ((recordHit l t (keyFn c)).1.reset.get (keyFn c) - t) := h122
      rw [recordHit_reset_same, if_neg h0] at h122b
      simp [recordHit64, recordHit, h0, wrap_of_isInt _ h122b]
  have hc := recordHit_hitCount l t (keyFn c)
  simp only [serve64, serve, hK, hrec, hc, wrap_of_isInt _ h125]

/-! ## Events -/

theorem resolve_funcs (config : List Config) :
    ∃ (keyFn : Ctx → String) (h : Ctx → Ctx),
      (resolve config).Key = some keyFn ∧ (resolve config).Handler = some h := by
  have hK := resolve_Key config
  have hH := resolve_Handler config
  cases hk : (given config).Key <;> cases hh : (given config).Handler <;>
    simp only [hk, hh] at hK hH <;> exact ⟨_, _, hK, hH⟩

theorem step_request (l : Limiter) (t117 t122 : Int) (c : Ctx) (l1 : Limiter)
    (hs : step l (Event.request t117 t122 c) = some l1) :
    (bypass l.cfg c = true ∧ l1 = l) ∨
    ∃ keyFn : Ctx → String, l.cfg.Key = some keyFn ∧ bypass l.cfg c = false ∧
      l1 = (recordHit64 l t117 t122 (keyFn c)).1 := by
  simp only [step] at hs
  cases hsv : serve64 l t117 t122 c with
  | none => simp [hsv] at hs
  | some r =>
    obtain ⟨l2, calls⟩ := r
    simp only [hsv, Option.some.injEq] at hs
    subst hs
    exact serve64_state l t117 t122 c l2 calls hsv

theorem step_cfg (l : Limiter) (e : Event) (l1 : Limiter) (hs : step l e = some l1) :
    l1.cfg = l.cfg := by
  cases e with
  | request t117 t122 c =>
    rcases step_request l t117 t122 c l1 hs with ⟨-, h⟩ | ⟨keyFn, -, -, h⟩
    · rw [h]
    · rw [h, recordHit64_cfg]
  | sweepKey t key =>
    simp only [step, Option.some.injEq] at hs
    rw [← hs, sweepKey_cfg]
  | sweep t =>
    simp only [step, Option.some.injEq] at hs
    rw [← hs, sweep_cfg]
  | abort => simp [step] at hs

theorem run_cfg : ∀ (es : List Event) (l l1 : Limiter), run l es = some l1 → l1.cfg = l.cfg := by
  intro es
  induction es with
  | nil =>
    intro l l1 h
    simp only [run, Option.some.injEq] at h
    rw [h]
  | cons e rest ih =>
    intro l l1 h
    simp only [run] at h
    cases hst : step l e with
    | none => simp [hst] at h
    | some l2 =>
      simp only [hst] at h
      rw [ih l2 l1 h, step_cfg l e l2 hst]

theorem run_concat : ∀ (es fs : List Event) (l : Limiter),
    run l (es ++ fs) = (run l es).bind (fun l1 => run l1 fs) := by
  intro es
  induction es with
  | nil => intro fs l; rfl
  | cons e rest ih =>
    intro fs l
    simp only [List.cons_append, run]
    cases hst : step l e with
    | none => rfl
    | some l1 => exact ih fs l1

theorem step_total (l : Limiter) (e : Event) (keyFn : Ctx → String) (h : Ctx → Ctx)
    (hK : l.cfg.Key = some keyFn) (hH : l.cfg.Handler = some h) (he : e ≠ Event.abort) :
    ∃ l1 : Limiter, step l e = some l1 := by
  cases e with
  | request t117 t122 c =>
    obtain ⟨l1, calls, hs⟩ := serve64_total l t117 t122 c keyFn h hK hH
    exact ⟨l1, by simp [step, hs]⟩
  | sweepKey t key => exact ⟨_, rfl⟩
  | sweep t => exact ⟨_, rfl⟩
  | abort => exact absurd rfl he

theorem step_hits_nonneg (l : Limiter) (e : Event) (l1 : Limiter)
    (hs : step l e = some l1) (hinv : ∀ k : String, 0 ≤ l.hits.get k) :
    ∀ k : String, 0 ≤ l1.hits.get k := by
  intro k
  cases e with
  | request t117 t122 c =>
    rcases step_request l t117 t122 c l1 hs with ⟨-, h⟩ | ⟨keyFn, -, -, h⟩
    · rw [h]; exact hinv k
    · rw [h]
      by_cases hk : keyFn c = k
      · rw [← hk, recordHit64_hits_same]
        have := hinv (keyFn c)
        omega
      · rw [recordHit64_hits_other l t117 t122 _ k hk]; exact hinv k
  | sweepKey t key =>
    simp only [step, Option.some.injEq] at hs
    subst hs
    by_cases hk : key = k
    · subst hk
      rw [(sweepKey_same t l key).1]
      split
      · exact le_refl 0
      · exact hinv key
    · rw [(sweepKey_other t l key k hk).1]; exact hinv k
  | sweep t =>
    simp only [step, Option.some.injEq] at hs
    subst hs
    rw [(sweep_get l t k).1]
    split
    · exact le_refl 0
    · exact hinv k
  | abort => simp [step] at hs

theorem run_hits_nonneg :
    ∀ (es : List Event) (l l1 : Limiter), run l es = some l1 →
      (∀ k : String, 0 ≤ l.hits.get k) → ∀ k : String, 0 ≤ l1.hits.get k := by
  intro es
  induction es with
  | nil =>
    intro l l1 h hinv
    simp only [run, Option.some.injEq] at h
    rw [← h]; exact hinv
  | cons e rest ih =>
    intro l l1 h hinv
    simp only [run] at h
    cases hst : step l e with
    | none => simp [hst] at h
    | some l2 =>
      simp only [hst] at h
      exact ih l2 l1 h (step_hits_nonneg l e l2 hst hinv)

theorem step_hits_mono (l : Limiter) (e : Event) (l1 : Limiter) (k : String)
    (hs : step l e = some l1) (hq : e.resets l k = false) :
    l.hits.get k ≤ l1.hits.get k := by
  cases e with
  | request t117 t122 c =>
    rcases step_request l t117 t122 c l1 hs with ⟨-, h⟩ | ⟨keyFn, -, -, h⟩
    · rw [h]
    · rw [h]
      by_cases hk : keyFn c = k
      · rw [← hk, recordHit64_hits_same]; omega
      · rw [recordHit64_hits_other l t117 t122 _ k hk]
  | sweepKey t key =>
    simp only [step, Option.some.injEq] at hs
    subst hs
    simp only [Event.resets, decide_eq_false_iff_not] at hq
    by_cases hk : key = k
    · subst hk
      have hc : ¬ (l.reset.get key ≠ 0 ∧ t ≥ l.reset.get key) := fun hh => hq ⟨rfl, hh⟩
      rw [(sweepKey_same t l key).1, if_neg hc]
    · rw [(sweepKey_other t l key k hk).1]
  | sweep t =>
    simp only [step, Option.some.injEq] at hs
    subst hs
    simp only [Event.resets, decide_eq_false_iff_not] at hq
    rw [(sweep_get l t k).1, if_neg hq]
  | abort => simp [step] at hs

theorem run_hits_mono (k : String) :
    ∀ (es : List Event) (l l1 : Limiter), run l es = some l1 → noReset k l es = true →
      l.hits.get k ≤ l1.hits.get k := by
  intro es
  induction es with
  | nil =>
    intro l l1 h _
    simp only [run, Option.some.injEq] at h
    rw [h]
  | cons e rest ih =>
    intro l l1 h hq
    simp only [run] at h
    cases hst : step l e with
    | none => simp [hst] at h
    | some l2 =>
      simp only [hst] at h
      simp only [noReset, hst, Bool.and_eq_true, Bool.not_eq_eq_eq_not, Bool.not_true] at hq
      exact le_trans (step_hits_mono l e l2 k hst hq.1) (ih l2 l1 h hq.2)

theorem wrap_sum_ne_zero (t timeout : Int) (ht : 0 ≤ t ∧ t ≤ maxInt)
    (hT : 0 < timeout ∧ timeout ≤ maxInt) : wrap (t + timeout) ≠ 0 := by
  simp only [maxInt] at ht hT
  unfold wrap
  omega

theorem step_coupled (l : Limiter) (e : Event) (l1 : Limiter) (hs : step l e = some l1)
    (hT : 0 < l.cfg.Timeout ∧ l.cfg.Timeout ≤ maxInt)
    (hc : ∀ t ∈ e.clocks, 0 ≤ t ∧ t ≤ maxInt)
    (hinv : ∀ k : String, 0 ≤ l.hits.get k ∧ (l.hits.get k = 0 ↔ l.reset.get k = 0)) :
    ∀ k : String, 0 ≤ l1.hits.get k ∧ (l1.hits.get k = 0 ↔ l1.reset.get k = 0) := by
  intro k
  cases e with
  | request t117 t122 c =>
    rcases step_request l t117 t122 c l1 hs with ⟨-, h⟩ | ⟨keyFn, -, -, h⟩
    · rw [h]; exact hinv k
    · rw [h]
      by_cases hk : keyFn c = k
      · rw [← hk, recordHit64_hits_same, recordHit64_reset_same]
        obtain ⟨h0, hiff⟩ := hinv (keyFn c)
        have hc2 : 0 ≤ t117 ∧ t117 ≤ maxInt := hc t117 (by simp [Event.clocks])
        have hne := wrap_sum_ne_zero t117 l.cfg.Timeout hc2 hT
        by_cases hr : l.reset.get (keyFn c) = 0
        · rw [if_pos hr]
          refine ⟨by omega, ⟨fun hh => by omega, fun hh => absurd hh hne⟩⟩
        · rw [if_neg hr]
          refine ⟨by omega, ⟨fun hh => by omega, fun hh => absurd hh hr⟩⟩
      · rw [recordHit64_hits_other l t117 t122 _ k hk,
          recordHit64_reset_other l t117 t122 _ k hk]
        exact hinv k
  | sweepKey t key =>
    simp only [step, Option.some.injEq] at hs
    subst hs
    by_cases hk : key = k
    · subst hk
      rw [(sweepKey_same t l key).1, (sweepKey_same t l key).2]
      split
      · exact ⟨le_refl 0, Iff.rfl⟩
      · exact hinv key
    · rw [(sweepKey_other t l key k hk).1, (sweepKey_other t l key k hk).2]
      exact hinv k
  | sweep t =>
    simp only [step, Option.some.injEq] at hs
    subst hs
    rw [(sweep_get l t k).1, (sweep_get l t k).2]
    split
    · exact ⟨le_refl 0, Iff.rfl⟩
    · exact hinv k
  | abort => simp [step] at hs

theorem run_coupled :
    ∀ (es : List Event) (l l1 : Limiter), run l es = some l1 →
      (0 < l.cfg.Timeout ∧ l.cfg.Timeout ≤ maxInt) →
      (∀ e ∈ es, ∀ t ∈ e.clocks, 0 ≤ t ∧ t ≤ maxInt) →
      (∀ k : String, 0 ≤ l.hits.get k ∧ (l.hits.get k = 0 ↔ l.reset.get k = 0)) →
      ∀ k : String, 0 ≤ l1.hits.get k ∧ (l1.hits.get k = 0 ↔ l1.reset.get k = 0) := by
  intro es
  induction es with
  | nil =>
    intro l l1 h _ _ hinv
    simp only [run, Option.some.injEq] at h
    rw [← h]; exact hinv
  | cons e rest ih =>
    intro l l1 h hT hc hinv
    simp only [run] at h
    cases hst : step l e with
    | none => simp [hst] at h
    | some l2 =>
      simp only [hst] at h
      have hcfg := step_cfg l e l2 hst
      exact ih l2 l1 h (by rw [hcfg]; exact hT)
        (fun x hx => hc x (List.mem_cons_of_mem _ hx))
        (step_coupled l e l2 hst hT (hc e (List.mem_cons_self _ _)) hinv)

theorem step_opened (l : Limiter) (e : Event) (l1 : Limiter) (now : Int)
    (hs : step l e = some l1) (hc : ∀ t ∈ e.clocks, 0 ≤ t ∧ t ≤ now)
    (hinv : ∀ k : String, l.reset.get k = 0 ∨
      ∃ t0 : Int, 0 ≤ t0 ∧ t0 ≤ now ∧ l.reset.get k = wrap (t0 + l.cfg.Timeout)) :
    ∀ k : String, l1.reset.get k = 0 ∨
      ∃ t0 : Int, 0 ≤ t0 ∧ t0 ≤ now ∧ l1.reset.get k = wrap (t0 + l1.cfg.Timeout) := by
  intro k
  rw [step_cfg l e l1 hs]
  cases e with
  | request t117 t122 c =>
    rcases step_request l t117 t122 c l1 hs with ⟨-, h⟩ | ⟨keyFn, -, -, h⟩
    · rw [h]; exact hinv k
    · rw [h]
      by_cases hk : keyFn c = k
      · rw [← hk, recordHit64_reset_same]
        have hc2 : 0 ≤ t117 ∧ t117 ≤ now := hc t117 (by simp [Event.clocks])
        by_cases hr : l.reset.get (keyFn c) = 0
        · rw [if_pos hr]
          exact Or.inr ⟨t117, hc2.1, hc2.2, rfl⟩
        · rw [if_neg hr]
          exact hinv (keyFn c)
      · rw [recordHit64_reset_other l t117 t122 _ k hk]
        exact hinv k
  | sweepKey t key =>
    simp only [step, Option.some.injEq] at hs
    subst hs
    by_cases hk : key = k
    · subst hk
      rw [(sweepKey_same t l key).2]
      split
      · exact Or.inl rfl
      · exact hinv key
    · rw [(sweepKey_other t l key k hk).2]
      exact hinv k
  | sweep t =>
    simp only [step, Option.some.injEq] at hs
    subst hs
    rw [(sweep_get l t k).2]
    split
    · exact Or.inl rfl
    · exact hinv k
  | abort => simp [step] at hs

theorem run_opened (now : Int) :
    ∀ (es : List Event) (l l1 : Limiter), run l es = some l1 →
      (∀ e ∈ es, ∀ t ∈ e.clocks, 0 ≤ t ∧ t ≤ now) →
      (∀ k : String, l.reset.get k = 0 ∨
        ∃ t0 : Int, 0 ≤ t0 ∧ t0 ≤ now ∧ l.reset.get k = wrap (t0 + l.cfg.Timeout)) →
      ∀ k : String, l1.reset.get k = 0 ∨
        ∃ t0 : Int, 0 ≤ t0 ∧ t0 ≤ now ∧ l1.reset.get k = wrap (t0 + l1.cfg.Timeout) := by
  intro es
  induction es with
  | nil =>
    intro l l1 h _ hinv
    simp only [run, Option.some.injEq] at h
    rw [← h]; exact hinv
  | cons e rest ih =>
    intro l l1 h hc hinv
    simp only [run] at h
    cases hst : step l e with
    | none => simp [hst] at h
    | some l2 =>
      simp only [hst] at h
      exact ih l2 l1 h (fun x hx => hc x (List.mem_cons_of_mem _ hx))
        (step_opened l e l2 now hst (hc e (List.mem_cons_self _ _)) hinv)

/-! ## Goroutines: one statement -/

theorem countP_set_balance {α : Type} (p : α → Bool) :
    ∀ (xs : List α) (i : Nat) (a b : α), xs[i]? = some a →
      (xs.set i b).countP p + (if p a then 1 else 0) = xs.countP p + (if p b then 1 else 0) := by
  intro xs
  induction xs with
  | nil => intro i a b h; simp at h
  | cons x rest ih =>
    intro i a b h
    cases i with
    | zero =>
      simp only [List.getElem?_cons_zero, Option.some.injEq] at h
      subst h
      simp only [List.set_cons_zero, List.countP_cons]
      omega
    | succ j =>
      simp only [List.getElem?_cons_succ] at h
      have := ih j a b h
      simp only [List.set_cons_succ, List.countP_cons]
      omega

theorem Goroutine.step_delta (cfg : Config) (keyFn : Ctx → String) (h : Ctx → Ctx)
    (k : String) (hK : cfg.Key = some keyFn) (hH : cfg.Handler = some h)
    (l : Limiter) (locked : Bool) (t : Int) (g : Goroutine)
    (hcfg : l.cfg = cfg) (hb : bypass cfg g.c = false) (hkey : keyFn g.c = k)
    (hgk : g.pc ≠ Pc.filter → g.key = k) (hlk : g.pc.inCS = true → locked = true) :
    ∃ (l1 : Limiter) (locked1 : Bool) (g1 : Goroutine),
      g.step l locked t = some (l1, locked1, g1) ∧ Delta cfg k l locked g l1 locked1 g1 := by
  have hK1 : l.cfg.Key = some keyFn := by rw [hcfg]; exact hK
  have hH1 : l.cfg.Handler = some h := by rw [hcfg]; exact hH
  have hb1 : bypass l.cfg g.c = false := by rw [hcfg]; exact hb
  cases hpc : g.pc with
  | filter =>
    refine ⟨_, _, _, by simp only [Goroutine.step, hpc, hb1, hK1]; rfl, ?_⟩
    constructor <;> simp [hpc, hkey, Pc.inCS, Pc.counted, Pc.pending, Pc.hasCount]
  | lock =>
    cases hl : locked with
    | true =>
      refine ⟨_, _, _, by simp only [Goroutine.step, hpc]; rfl, ?_⟩
      constructor <;> simp [hpc, hgk, Pc.inCS, Pc.counted, Pc.pending, Pc.hasCount]
    | false =>
      refine ⟨_, _, _, by simp only [Goroutine.step, hpc]; rfl, ?_⟩
      have := hgk (by rw [hpc]; decide)
      constructor <;> simp [hpc, this, Pc.inCS, Pc.counted, Pc.pending, Pc.hasCount]
  | incr =>
    have hk := hgk (by rw [hpc]; decide)
    have hl := hlk (by rw [hpc]; rfl)
    refine ⟨_, _, _, by simp only [Goroutine.step, hpc]; rfl, ?_⟩
    constructor <;>
      simp [hpc, hk, hl, Pc.inCS, Pc.counted, Pc.pending, Pc.hasCount, IntMap.get_set_same]
  | window =>
    have hk := hgk (by rw [hpc]; decide)
    by_cases hr : l.reset.get g.key = 0
    · refine ⟨_, _, _, by simp only [Goroutine.step, hpc, hr, if_true]; rfl, ?_⟩
      constructor <;> simp [hpc, hk, Pc.inCS, Pc.counted, Pc.pending, Pc.hasCount]
    · refine ⟨_, _, _, by simp only [Goroutine.step, hpc, hr, if_false]; rfl, ?_⟩
      constructor <;> simp [hpc, hk, Pc.inCS, Pc.counted, Pc.pending, Pc.hasCount]
  | hitCount =>
    have hk := hgk (by rw [hpc]; decide)
    refine ⟨_, _, _, by simp only [Goroutine.step, hpc]; rfl, ?_⟩
    constructor <;> simp [hpc, hk, Pc.inCS, Pc.counted, Pc.pending, Pc.hasCount]
  | resetTime =>
    have hk := hgk (by rw [hpc]; decide)
    refine ⟨_, _, _, by simp only [Goroutine.step, hpc]; rfl, ?_⟩
    constructor <;> simp [hpc, hk, Pc.inCS, Pc.counted, Pc.pending, Pc.hasCount]
  | unlock =>
    have hk := hgk (by rw [hpc]; decide)
    have hl := hlk (by rw [hpc]; rfl)
    refine ⟨_, _, _, by simp only [Goroutine.step, hpc]; rfl, ?_⟩
    constructor <;> simp [hpc, hk, hl, Pc.inCS, Pc.counted, Pc.pending, Pc.hasCount]
  | respond =>
    have hk := hgk (by rw [hpc]; decide)
    by_cases hrem : wrap (l.cfg.Max - g.hitCount) < 0
    · refine ⟨_, _, _, by simp only [Goroutine.step, hpc, hrem, hH1, if_true]; rfl, ?_⟩
      rw [hcfg] at hrem
      constructor <;>
        simp [hpc, hk, Pc.inCS, Pc.counted, Pc.pending, Pc.hasCount, admitted, rejected,
          Call.isNext, Call.isHandler]
      all_goals omega
    · refine ⟨_, _, _, by simp only [Goroutine.step, hpc, hrem, if_false]; rfl, ?_⟩
      rw [hcfg] at hrem
      constructor <;>
        simp [hpc, hk, Pc.inCS, Pc.counted, Pc.pending, Pc.hasCount, admitted, rejected,
          Call.isNext, Call.isHandler]
      all_goals omega
  | done =>
    have hk := hgk (by rw [hpc]; decide)
    refine ⟨_, _, _, by simp only [Goroutine.step, hpc]; rfl, ?_⟩
    constructor <;> simp [hpc, hk, Pc.inCS, Pc.counted, Pc.pending, Pc.hasCount]

theorem Pc.hasCount_not_pending (pc : Pc) (hc : pc.hasCount = true) : pc.pending = false := by
  cases pc <;> simp [Pc.hasCount, Pc.pending] at hc ⊢

theorem Inv.step (cfg : Config) (keyFn : Ctx → String) (k : String) (n : Nat) (w : World)
    (i : Nat) (g : Goroutine) (l1 : Limiter) (locked1 : Bool) (g1 : Goroutine)
    (hinv : Inv cfg keyFn k n w) (hg : w.gs[i]? = some g)
    (hd : Delta cfg k w.l w.locked g l1 locked1 g1) :
    Inv cfg keyFn k n { l := l1, locked := locked1, gs := w.gs.set i g1 } := by
  have hmem : g ∈ w.gs := List.getElem?_mem hg
  have bIn := countP_set_balance (fun x : Goroutine => x.pc.inCS) w.gs i g g1 hg
  have bCo := countP_set_balance (fun x : Goroutine => x.pc.counted) w.gs i g g1 hg
  have bPe := countP_set_balance (fun x : Goroutine => x.pc.pending) w.gs i g g1 hg
  have hmut := hinv.mutex
  have hhits := hinv.hits
  have dmut := hd.mutex
  have dhits := hd.hits
  have dpend := hd.pend
  have hle : w.gs.countP (fun x => x.pc.pending) ≤ w.gs.countP (fun x => x.pc.inCS) :=
    List.countP_mono_left (fun x _ hx => by
      cases hpc : x.pc <;> simp [hpc, Pc.pending, Pc.inCS] at hx ⊢)
  have hle1 : w.gs.countP (fun x => x.pc.inCS) ≤ 1 := by
    rw [hmut]; split <;> omega
  simp only at bIn bCo bPe
  have oldBound : ∀ x ∈ w.gs, x.pc.hasCount = true →
      1 ≤ x.hitCount ∧
      x.hitCount + ((w.gs.set i g1).countP (fun y => y.pc.pending) : Nat) ≤ l1.hits.get k := by
    intro x hx hc
    obtain ⟨h1, h2⟩ := hinv.bound x hx hc
    refine ⟨h1, ?_⟩
    split_ifs at bPe dpend <;> omega
  have newBound : g1.pc.hasCount = true →
      1 ≤ g1.hitCount ∧
      g1.hitCount + ((w.gs.set i g1).countP (fun y => y.pc.pending) : Nat) ≤ l1.hits.get k := by
    intro hc
    rcases hd.count hc with ⟨hgc, heq⟩ | ⟨hpc, heq, hsame⟩
    · rw [heq]; exact oldBound g hmem hgc
    · have hp1 : g1.pc.pending = false := Pc.hasCount_not_pending _ hc
      have hp0 : g.pc.pending = true := by rw [hpc]; rfl
      have hc0 : g.pc.counted = true := by rw [hpc]; rfl
      have hpos : 0 < w.gs.countP (fun x => x.pc.counted) :=
        List.countP_pos_iff.mpr ⟨g, hmem, hc0⟩
      simp only [hp0, hp1, if_true, Bool.false_eq_true, if_false] at bPe
      rw [heq, hsame]
      constructor <;> omega
  constructor
  · exact hd.cfg_eq.trans hinv.cfg_eq
  · show (w.gs.set i g1).length = n
    rw [List.length_set]; exact hinv.len
  · intro x hx
    rcases List.mem_or_eq_of_mem_set hx with hx | hx
    · exact hinv.req x hx
    · rw [hx, hd.ctx_eq]
      exact ⟨(hinv.req g hmem).1, (hinv.req g hmem).2.1, hd.key_ok⟩
  · show (w.gs.set i g1).countP (fun x => x.pc.inCS) = if locked1 then 1 else 0
    split_ifs at bIn dmut hmut ⊢ <;> omega
  · show l1.hits.get k = ((w.gs.set i g1).countP (fun x => x.pc.counted) : Nat)
    split_ifs at bCo dhits <;> omega
  · intro x hx hc
    rcases List.mem_or_eq_of_mem_set hx with hx | hx
    · exact oldBound x hx hc
    · rw [hx] at hc ⊢
      exact newBound hc
  · intro a b ga gb ha hb hab hca hcb
    simp only [List.getElem?_set] at ha hb
    by_cases hia : i = a
    · have hib : ¬ i = b := fun e => hab (hia.symm.trans e)
      rw [if_pos hia] at ha
      rw [if_neg hib] at hb
      split at ha
      · simp only [Option.some.injEq] at ha
        subst ha
        rcases hd.count hca with ⟨hgc, heq⟩ | ⟨hpc, heq, -⟩
        · rw [heq]
          exact hinv.distinct i b g gb hg hb (fun e => hib e) hgc hcb
        · have hp0 : g.pc.pending = true := by rw [hpc]; rfl
          have hpos : 0 < w.gs.countP (fun x => x.pc.pending) :=
            List.countP_pos_iff.mpr ⟨g, hmem, hp0⟩
          have := (hinv.bound gb (List.getElem?_mem hb) hcb).2
          rw [heq]
          omega
      · exact absurd ha (by simp)
    · rw [if_neg hia] at ha
      by_cases hib : i = b
      · rw [if_pos hib] at hb
        split at hb
        · simp only [Option.some.injEq] at hb
          subst hb
          rcases hd.count hcb with ⟨hgc, heq⟩ | ⟨hpc, heq, -⟩
          · rw [heq]
            exact hinv.distinct a i ga g ha hg (fun e => hia e.symm) hca hgc
          · have hp0 : g.pc.pending = true := by rw [hpc]; rfl
            have hpos : 0 < w.gs.countP (fun x => x.pc.pending) :=
              List.countP_pos_iff.mpr ⟨g, hmem, hp0⟩
            have := (hinv.bound ga (List.getElem?_mem ha) hca).2
            rw [heq]
            omega
        · exact absurd hb (by simp)
      · rw [if_neg hib] at hb
        exact hinv.distinct a b ga gb ha hb hab hca hcb
  · intro x hx hdone
    rcases List.mem_or_eq_of_mem_set hx with hx | hx
    · exact hinv.answer x hx hdone
    · rw [hx] at hdone ⊢
      rcases hd.answer hdone with ⟨hgd, hcalls, hcount⟩ | hnew
      · rw [hcalls, hcount]
        exact hinv.answer g hmem hgd
      · exact hnew

/-! ## Goroutines: schedules -/

theorem World.step_inv (cfg : Config) (keyFn : Ctx → String) (h : Ctx → Ctx) (k : String)
    (n : Nat) (hK : cfg.Key = some keyFn) (hH : cfg.Handler = some h) (w : World)
    (i : Nat) (t : Int) (hinv : Inv cfg keyFn k n w) :
    ∃ w1 : World, w.step i t = some w1 ∧ Inv cfg keyFn k n w1 := by
  cases hg : w.gs[i]? with
  | none => exact ⟨w, by simp [World.step, hg], hinv⟩
  | some g =>
    have hmem : g ∈ w.gs := List.getElem?_mem hg
    obtain ⟨hb, hkey, hgk⟩ := hinv.req g hmem
    have hlk : g.pc.inCS = true → w.locked = true := by
      intro hin
      have hpos : 0 < w.gs.countP (fun x => x.pc.inCS) :=
        List.countP_pos_iff.mpr ⟨g, hmem, hin⟩
      have hm := hinv.mutex
      cases hl : w.locked with
      | true => rfl
      | false =>
        rw [hl] at hm
        simp at hm
        exact absurd (hm g hmem) (by simp [hin])
    obtain ⟨l1, locked1, g1, hs, hd⟩ :=
      Goroutine.step_delta cfg keyFn h k hK hH w.l w.locked t g hinv.cfg_eq hb hkey hgk hlk
    exact ⟨_, by simp [World.step, hg, hs], Inv.step cfg keyFn k n w i g l1 locked1 g1 hinv hg hd⟩

theorem World.run_inv (cfg : Config) (keyFn : Ctx → String) (h : Ctx → Ctx) (k : String)
    (n : Nat) (hK : cfg.Key = some keyFn) (hH : cfg.Handler = some h) :
    ∀ (sched : List (Nat × Int)) (w : World), Inv cfg keyFn k n w →
      ∃ w1 : World, w.run sched = some w1 ∧ Inv cfg keyFn k n w1 := by
  intro sched
  induction sched with
  | nil => intro w hinv; exact ⟨w, rfl, hinv⟩
  | cons p rest ih =>
    intro w hinv
    obtain ⟨i, t⟩ := p
    obtain ⟨w1, hs, hinv1⟩ := World.step_inv cfg keyFn h k n hK hH w i t hinv
    obtain ⟨w2, hr, hinv2⟩ := ih w1 hinv1
    exact ⟨w2, by simp [World.run, hs, hr], hinv2⟩

theorem World.start_inv (keyFn : Ctx → String) (k : String) (l : Limiter) (cs : List Ctx)
    (h0 : l.hits.get k = 0) (hreq : ∀ c ∈ cs, bypass l.cfg c = false ∧ keyFn c = k) :
    Inv l.cfg keyFn k cs.length (World.start l cs) := by
  have hpc : ∀ g ∈ (World.start l cs).gs, g.pc = Pc.filter := by
    intro g hg
    simp only [World.start, List.mem_map] at hg
    obtain ⟨c, -, rfl⟩ := hg
    rfl
  have hzero : ∀ p : Pc → Bool, p Pc.filter = false →
      (World.start l cs).gs.countP (fun g => p g.pc) = 0 := by
    intro p hp
    rw [List.countP_eq_zero]
    intro g hg
    simp [hpc g hg, hp]
  constructor
  · rfl
  · simp [World.start]
  · intro g hg
    have hfil := hpc g hg
    simp only [World.start, List.mem_map] at hg
    obtain ⟨c, hc, rfl⟩ := hg
    exact ⟨(hreq c hc).1, (hreq c hc).2, fun hne => absurd hfil hne⟩
  · rw [hzero Pc.inCS rfl]; rfl
  · rw [hzero Pc.counted rfl]; exact h0
  · intro g hg hc
    rw [hpc g hg] at hc
    exact absurd hc (by decide)
  · intro i j gi gj hi _ _ hc _
    rw [hpc gi (List.getElem?_mem hi)] at hc
    exact absurd hc (by decide)
  · intro g hg hd
    rw [hpc g hg] at hd
    exact absurd hd (by decide)

theorem nodup_filter_count (xs : List Int) (n : Nat) (p : Int → Bool) (hnd : xs.Nodup)
    (hlen : xs.length = n) (hin : ∀ v ∈ xs, 1 ≤ v ∧ v ≤ n) :
    (xs.filter p).length = ((Finset.Icc 1 (n : Int)).filter (fun v => p v = true)).card := by
  have hsub : xs.toFinset ⊆ Finset.Icc 1 (n : Int) := by
    intro v hv
    rw [List.mem_toFinset] at hv
    rw [Finset.mem_Icc]
    exact hin v hv
  have hcard : (Finset.Icc 1 (n : Int)).card ≤ xs.toFinset.card := by
    rw [List.toFinset_card_of_nodup hnd, Int.card_Icc, hlen]
    simp
  have heq := Finset.eq_of_subset_of_card_le hsub hcard
  rw [← List.toFinset_card_of_nodup (hnd.filter p), List.toFinset_filter, heq]

theorem count_admitted_nonneg_Max (n : Nat) (m : Int) (hm : 0 ≤ m ∧ m ≤ maxInt)
    (hn : (n : Int) ≤ maxInt) :
    (((Finset.Icc 1 (n : Int)).filter
        (fun v => decide (0 ≤ wrap (m - v)) = true)).card : Int) = min m n := by
  simp only [maxInt] at hm hn
  have hf : (Finset.Icc 1 (n : Int)).filter (fun v => decide (0 ≤ wrap (m - v)) = true)
      = Finset.Icc 1 (min m n) := by
    ext v
    simp only [Finset.mem_filter, Finset.mem_Icc, decide_eq_true_eq]
    unfold wrap
    constructor
    · intro hh; exact ⟨hh.1.1, by omega⟩
    · intro hh; exact ⟨⟨hh.1, by omega⟩, by omega⟩
  rw [hf, Int.card_Icc]
  omega

theorem count_admitted_neg_Max (n : Nat) (m : Int) (hm : minInt ≤ m ∧ m < 0)
    (hn : (n : Int) ≤ maxInt) :
    (((Finset.Icc 1 (n : Int)).filter
        (fun v => decide (0 ≤ wrap (m - v)) = true)).card : Int)
      = max 0 (n - (m + 9223372036854775808)) := by
  simp only [minInt] at hm
  simp only [maxInt] at hn
  have hf : (Finset.Icc 1 (n : Int)).filter (fun v => decide (0 ≤ wrap (m - v)) = true)
      = Finset.Icc (m + 9223372036854775808 + 1) (n : Int) := by
    ext v
    simp only [Finset.mem_filter, Finset.mem_Icc, decide_eq_true_eq]
    unfold wrap
    constructor
    · intro hh; exact ⟨by omega, hh.1.2⟩
    · intro hh; exact ⟨⟨by omega, hh.2⟩, by omega⟩
  rw [hf, Int.card_Icc]
  omega

theorem Inv.finished (cfg : Config) (keyFn : Ctx → String) (k : String) (n : Nat)
    (w : World) (hinv : Inv cfg keyFn k n w) (hfin : w.finished = true) :
    w.gs.length = n ∧ w.locked = false ∧ w.l.hits.get k = n ∧
    (w.gs.map (fun g => g.hitCount)).Nodup ∧
    (∀ g ∈ w.gs, 1 ≤ g.hitCount ∧ g.hitCount ≤ n ∧
      (admitted g.calls = true ↔ 0 ≤ wrap (cfg.Max - g.hitCount)) ∧
      (rejected g.calls = true ↔ wrap (cfg.Max - g.hitCount) < 0)) ∧
    w.gs.countP (fun g => admitted g.calls) =
      ((Finset.Icc 1 (n : Int)).filter
        (fun v => decide (0 ≤ wrap (cfg.Max - v)) = true)).card := by
  have hdone : ∀ g ∈ w.gs, g.pc = Pc.done := by
    intro g hg
    have := List.all_eq_true.mp hfin g hg
    simpa using this
  have hcounted : w.gs.countP (fun g => g.pc.counted) = w.gs.length := by
    rw [List.countP_eq_length]
    intro g hg
    simp [hdone g hg, Pc.counted]
  have hhits : w.l.hits.get k = n := by
    rw [hinv.hits, hcounted, hinv.len]
  have hlocked : w.locked = false := by
    have hm := hinv.mutex
    have hz : w.gs.countP (fun g => g.pc.inCS) = 0 := by
      rw [List.countP_eq_zero]
      intro g hg
      simp [hdone g hg, Pc.inCS]
    rw [hz] at hm
    cases hl : w.locked with
    | false => rfl
    | true => rw [hl] at hm; simp at hm
  have hall : ∀ g ∈ w.gs, 1 ≤ g.hitCount ∧ g.hitCount ≤ n ∧
      (admitted g.calls = true ↔ 0 ≤ wrap (cfg.Max - g.hitCount)) ∧
      (rejected g.calls = true ↔ wrap (cfg.Max - g.hitCount) < 0) := by
    intro g hg
    have hc : g.pc.hasCount = true := by rw [hdone g hg]; rfl
    obtain ⟨h1, h2⟩ := hinv.bound g hg hc
    refine ⟨h1, ?_, hinv.answer g hg (hdone g hg)⟩
    rw [hhits] at h2
    omega
  have hnd : (w.gs.map (fun g => g.hitCount)).Nodup := by
    rw [List.nodup_iff_getElem?_ne_getElem?]
    intro i j hij hj heq
    rw [List.length_map] at hj
    simp only [List.getElem?_map] at heq
    have hi : i < w.gs.length := lt_trans hij hj
    rw [List.getElem?_eq_getElem hi, List.getElem?_eq_getElem hj] at heq
    simp only [Option.map_some', Option.some.injEq] at heq
    have hgi : w.gs[i]? = some w.gs[i] := List.getElem?_eq_getElem hi
    have hgj : w.gs[j]? = some w.gs[j] := List.getElem?_eq_getElem hj
    exact hinv.distinct i j _ _ hgi hgj (by omega)
      (by rw [hdone _ (List.getElem_mem hi)]; rfl)
      (by rw [hdone _ (List.getElem_mem hj)]; rfl) heq
  have hcongr : w.gs.countP (fun g => admitted g.calls)
      = w.gs.countP ((fun v : Int => decide (0 ≤ wrap (cfg.Max - v))) ∘
          (fun g => g.hitCount)) := by
    apply List.countP_congr
    intro g hg
    simp [(hall g hg).2.2.1]
  refine ⟨hinv.len, hlocked, hhits, hnd, hall, ?_⟩
  rw [hcongr, ← List.countP_map, List.countP_eq_length_filter]
  apply nodup_filter_count _ n _ hnd (by rw [List.length_map]; exact hinv.len)
  intro v hv
  rw [List.mem_map] at hv
  obtain ⟨g, hg, rfl⟩ := hv
  exact ⟨(hall g hg).1, (hall g hg).2.1⟩

/-! ## Goroutines: a schedule that finishes -/

theorem World.run_append :
    ∀ (s1 s2 : List (Nat × Int)) (w : World),
      w.run (s1 ++ s2) = (w.run s1).bind (fun w1 => w1.run s2) := by
  intro s1
  induction s1 with
  | nil => intro s2 w; rfl
  | cons p rest ih =>
    intro s2 w
    obtain ⟨i, t⟩ := p
    simp only [List.cons_append, World.run]
    cases hs : w.step i t with
    | none => rfl
    | some w1 => exact ih s2 w1

theorem World.step_cons (l : Limiter) (locked : Bool) (g0 : Goroutine) (gs : List Goroutine)
    (i : Nat) (t : Int) :
    World.step { l := l, locked := locked, gs := g0 :: gs } (i + 1) t =
      (World.step { l := l, locked := locked, gs := gs } i t).map
        (fun w => { w with gs := g0 :: w.gs }) := by
  simp only [World.step, List.getElem?_cons_succ]
  cases hg : gs[i]? with
  | none => rfl
  | some g =>
    simp only []
    cases hs : g.step l locked t with
    | none => rfl
    | some r => rfl

theorem World.run_cons (g0 : Goroutine) :
    ∀ (sched : List (Nat × Int)) (l : Limiter) (locked : Bool) (gs : List Goroutine),
      World.run { l := l, locked := locked, gs := g0 :: gs }
          (sched.map (fun p => (p.1 + 1, p.2))) =
        (World.run { l := l, locked := locked, gs := gs } sched).map
          (fun w => { w with gs := g0 :: w.gs }) := by
  intro sched
  induction sched with
  | nil => intro l locked gs; rfl
  | cons p rest ih =>
    intro l locked gs
    obtain ⟨i, t⟩ := p
    simp only [List.map_cons, World.run, World.step_cons]
    cases hs : World.step { l := l, locked := locked, gs := gs } i t with
    | none => rfl
    | some w1 =>
      obtain ⟨l1, locked1, gs1⟩ := w1
      exact ih l1 locked1 gs1

theorem World.run_alone (l : Limiter) (t : Int) (c : Ctx) (rest : List Goroutine)
    (keyFn : Ctx → String) (h : Ctx → Ctx) (hK : l.cfg.Key = some keyFn)
    (hH : l.cfg.Handler = some h) (hb : bypass l.cfg c = false) :
    ∃ (l1 : Limiter) (calls : List Call), serve64 l t t c = some (l1, calls) ∧
      World.run { l := l, locked := false, gs := Goroutine.start c :: rest }
          (List.replicate 9 (0, t)) =
        some { l := l1, locked := false,
               gs := { c := c, pc := Pc.done, key := keyFn c,
                       hitCount := l.hits.get (keyFn c) + 1,
                       resetTime := wrap (l1.reset.get (keyFn c) - t),
                       calls := calls } :: rest } := by
  by_cases hrem : wrap (l.cfg.Max - (l.hits.get (keyFn c) + 1)) < 0
  · refine ⟨_, _, serve64_block l t t c keyFn h hK hH hb hrem, ?_⟩
    by_cases hr : l.reset.get (keyFn c) = 0
    · simp [List.replicate, World.run, World.step, Goroutine.step, Goroutine.start, hb, hK, hH,
        hr, hrem, IntMap.get_set_same, recordHit64, blockCalls]
    · simp [List.replicate, World.run, World.step, Goroutine.step, Goroutine.start, hb, hK, hH,
        hr, hrem, IntMap.get_set_same, recordHit64, blockCalls]
  · refine ⟨_, _, serve64_pass l t t c keyFn hK hb (by omega), ?_⟩
    by_cases hr : l.reset.get (keyFn c) = 0
    · simp [List.replicate, World.run, World.step, Goroutine.step, Goroutine.start, hb, hK, hH,
        hr, hrem, IntMap.get_set_same, recordHit64, passCalls64]
    · simp [List.replicate, World.run, World.step, Goroutine.step, Goroutine.start, hb, hK, hH,
        hr, hrem, IntMap.get_set_same, recordHit64, passCalls64]

theorem World.run_finishes (keyFn : Ctx → String) (h : Ctx → Ctx) :
    ∀ (cs : List Ctx) (l : Limiter), l.cfg.Key = some keyFn → l.cfg.Handler = some h →
      (∀ c ∈ cs, bypass l.cfg c = false) →
      ∃ (sched : List (Nat × Int)) (w : World),
        (World.start l cs).run sched = some w ∧ w.finished = true := by
  intro cs
  induction cs with
  | nil => intro l _ _ _; exact ⟨[], _, rfl, rfl⟩
  | cons c rest ih =>
    intro l hK hH hb
    obtain ⟨l1, calls, hs, hrun⟩ := World.run_alone l 0 c (rest.map Goroutine.start) keyFn h
      hK hH (hb c (List.mem_cons_self _ _))
    have hcfg : l1.cfg = l.cfg := by
      rcases serve64_state l 0 0 c l1 calls hs with ⟨-, e⟩ | ⟨kf, -, -, e⟩
      · rw [e]
      · rw [e, recordHit64_cfg]
    obtain ⟨sched, w, hr, hfin⟩ := ih l1 (by rw [hcfg]; exact hK) (by rw [hcfg]; exact hH)
      (fun x hx => by rw [hcfg]; exact hb x (List.mem_cons_of_mem _ hx))
    refine ⟨List.replicate 9 (0, 0) ++ sched.map (fun p => (p.1 + 1, p.2)),
      World.mk w.l w.locked
        (Goroutine.mk c Pc.done (keyFn c) (l.hits.get (keyFn c) + 1)
          (wrap (l1.reset.get (keyFn c) - 0)) calls :: w.gs), ?_, ?_⟩
    · rw [World.run_append]
      show (World.run (World.mk l false (Goroutine.start c :: rest.map Goroutine.start))
          _).bind _ = _
      rw [hrun]
      simp only [Option.bind]
      rw [World.run_cons]
      show Option.map _ ((World.start l1 rest).run sched) = _
      rw [hr]
      rfl
    · simp only [World.finished, List.all_cons, Bool.and_eq_true, decide_eq_true_eq]
      exact ⟨trivial, hfin⟩

/-! ## Claims on the configuration -/

/-- C5. Constructing the limiter with no configuration, by calling New with no
argument or with the zero Config, resolves to Timeout 60, Max 10, StatusCode 429
and the default Message. -/
theorem C5_defaults_without_configuration :
    (New []).cfg.Timeout = 60 ∧ (New []).cfg.Max = 10 ∧
    (New []).cfg.StatusCode = 429 ∧
    (New []).cfg.Message = "Too many requests, please try again later." ∧
    (New [Config.zero]).cfg.Timeout = 60 ∧ (New [Config.zero]).cfg.Max = 10 ∧
    (New [Config.zero]).cfg.StatusCode = 429 ∧
    (New [Config.zero]).cfg.Message = "Too many requests, please try again later." := by
  simp [New, resolve_Timeout, resolve_Max, resolve_StatusCode, resolve_Message, given,
    Config.zero]

/-- C6, as stated, fails: a negative Timeout and a negative Max are kept by New,
so the resolved fields are neither the defaults nor positive. -/
theorem C6_negative_fields_are_kept :
    (New [{ Config.zero with Timeout := -1, Max := -5 }]).cfg.Timeout = -1 ∧
    (New [{ Config.zero with Timeout := -1, Max := -5 }]).cfg.Max = -5 ∧
    ¬ (0 < (New [{ Config.zero with Timeout := -1, Max := -5 }]).cfg.Timeout) ∧
    ¬ (0 < (New [{ Config.zero with Timeout := -1, Max := -5 }]).cfg.Max) := by
  simp [New, resolve_Timeout, resolve_Max, given, Config.zero]

/-- C6, amended. For every argument list, New returns a limiter; a Timeout or
Max that is zero is resolved to its default 60 or 10, a Timeout or Max that is
not zero, negative ones included, is kept as given; so the resolved Timeout and
Max are never zero, and they are positive whenever the given field is not
negative. -/
theorem C6_zero_fields_fall_back (config : List Config) :
    (∃ l : Limiter, New config = l) ∧
    ((given config).Timeout = 0 → (New config).cfg.Timeout = 60) ∧
    ((given config).Max = 0 → (New config).cfg.Max = 10) ∧
    ((given config).Timeout ≠ 0 → (New config).cfg.Timeout = (given config).Timeout) ∧
    ((given config).Max ≠ 0 → (New config).cfg.Max = (given config).Max) ∧
    (New config).cfg.Timeout ≠ 0 ∧ (New config).cfg.Max ≠ 0 ∧
    (0 ≤ (given config).Timeout → 0 < (New config).cfg.Timeout) ∧
    (0 ≤ (given config).Max → 0 < (New config).cfg.Max) := by
  have hT := resolve_Timeout config
  have hM := resolve_Max config
  refine ⟨⟨New config, rfl⟩, ?_, ?_, ?_, ?_, ?_, ?_, ?_, ?_⟩ <;>
    simp only [New] <;> rw [hT] at * <;> try rw [hM] at *
  all_goals split <;> intros <;> omega

/-- C6 at a concrete argument: Timeout -1 is kept, Max 0 becomes 10. -/
theorem C6_zero_fields_fall_back_witness :
    (New [{ Config.zero with Timeout := -1 }]).cfg.Timeout = -1 ∧
    (New [{ Config.zero with Timeout := -1 }]).cfg.Max = 10 ∧
    0 < (New [{ Config.zero with Timeout := -1 }]).cfg.Max :=
  ⟨(C6_zero_fields_fall_back [{ Config.zero with Timeout := -1 }]).2.2.2.1 (by decide),
   (C6_zero_fields_fall_back [{ Config.zero with Timeout := -1 }]).2.2.1 (by decide),
   (C6_zero_fields_fall_back [{ Config.zero with Timeout := -1 }]).2.2.2.2.2.2.2.2
     (by decide)⟩

/-! ## Claims on one evaluation -/

/-- C8. When a configured Filter returns true for the request, the evaluation
returns the state it was given, hits and reset maps included, whatever the
count of any key; the only call it makes on the context is Next, once: no
header is set and the rejection handler is not invoked. -/
theorem C8_bypass_leaves_state (l : Limiter) (now : Int) (c : Ctx) (f : Ctx → Bool)
    (hF : l.cfg.Filter = some f) (hfc : f c = true) :
    ∃ calls : List Call, serve l now c = some (l, calls) ∧
      calls.countP Call.isNext = 1 ∧
      calls.countP Call.isHandler = 0 ∧
      (∀ key : String, calls.countP (Call.isSet key) = 0) ∧
      (∀ next : Ctx → Ctx, execAll next calls c = next c) := by
  refine ⟨[Call.next], serve_bypass l now c (by simp [bypass, hF, hfc]), by decide,
    by decide, ?_, ?_⟩
  · intro key
    rfl
  · intro next
    rfl

/-- C8 for a key already counted 99 times with Max 10: the filter still lets the
request through and the state is the one given. -/
theorem C8_bypass_leaves_state_witness :
    ∃ calls : List Call,
      serve { cfg := resolve [{ Config.zero with Filter := some (fun _ => true) }],
              hits := ⟨[("10.0.0.1", 99)]⟩, reset := ⟨[("10.0.0.1", 1060)]⟩ }
          1000 (Ctx.request "10.0.0.1" "/")
        = some ({ cfg := resolve [{ Config.zero with Filter := some (fun _ => true) }],
                  hits := ⟨[("10.0.0.1", 99)]⟩, reset := ⟨[("10.0.0.1", 1060)]⟩ }, calls) ∧
      calls.countP Call.isNext = 1 ∧
      calls.countP Call.isHandler = 0 ∧
      (∀ key : String, calls.countP (Call.isSet key) = 0) ∧
      (∀ next : Ctx → Ctx, execAll next calls (Ctx.request "10.0.0.1" "/")
        = next (Ctx.request "10.0.0.1" "/")) :=
  C8_bypass_leaves_state
    { cfg := resolve [{ Config.zero with Filter := some (fun _ => true) }],
      hits := ⟨[("10.0.0.1", 99)]⟩, reset := ⟨[("10.0.0.1", 1060)]⟩ }
    1000 (Ctx.request "10.0.0.1" "/") (fun _ => true) rfl rfl

/-- C4. An evaluation that is not bypassed and whose remaining = Max - hitCount
is not negative, hitCount being the count of the key after the increment, sets
X-RateLimit-Limit to Max, X-RateLimit-Remaining to Max - hitCount and
X-RateLimit-Reset to reset[key] - now, all in decimal, then calls Next, once,
and does not call the rejection handler. -/
theorem C4_admitted_sets_headers_then_next (l : Limiter) (now : Int) (c : Ctx)
    (keyFn : Ctx → String) (hK : l.cfg.Key = some keyFn) (hb : bypass l.cfg c = false)
    (hrem : 0 ≤ l.cfg.Max - (recordHit l now (keyFn c)).2.1) :
    ∃ (l1 : Limiter) (calls : List Call), serve l now c = some (l1, calls) ∧
      l1 = (recordHit l now (keyFn c)).1 ∧
      l1.hits.get (keyFn c) = l.hits.get (keyFn c) + 1 ∧
      calls =
        [Call.set "X-RateLimit-Limit" (Itoa l.cfg.Max),
         Call.set "X-RateLimit-Remaining" (Itoa (l.cfg.Max - l1.hits.get (keyFn c))),
         Call.set "X-RateLimit-Reset" (Itoa (l1.reset.get (keyFn c) - now)),
         Call.next] ∧
      calls.countP Call.isNext = 1 ∧ calls.countP Call.isHandler = 0 := by
  rw [recordHit_hitCount] at hrem
  refine ⟨_, _, serve_pass l now c keyFn hK hb hrem, rfl, recordHit_hits_same l now _, ?_,
    by simp [passCalls, Call.isNext], by simp [passCalls, Call.isHandler]⟩
  rw [recordHit_hits_same]
  rfl

/-- C4 on the first request of a new limiter with the default configuration. -/
theorem C4_admitted_sets_headers_then_next_witness :
    ∃ (l1 : Limiter) (calls : List Call),
      serve (New []) 1000 (Ctx.request "10.0.0.1" "/") = some (l1, calls) ∧
      l1 = (recordHit (New []) 1000 "10.0.0.1").1 ∧
      l1.hits.get "10.0.0.1" = (New []).hits.get "10.0.0.1" + 1 ∧
      calls =
        [Call.set "X-RateLimit-Limit" (Itoa (New []).cfg.Max),
         Call.set "X-RateLimit-Remaining" (Itoa ((New []).cfg.Max - l1.hits.get "10.0.0.1")),
         Call.set "X-RateLimit-Reset" (Itoa (l1.reset.get "10.0.0.1" - 1000)),
         Call.next] ∧
      calls.countP Call.isNext = 1 ∧ calls.countP Call.isHandler = 0 :=
  C4_admitted_sets_headers_then_next (New []) 1000 (Ctx.request "10.0.0.1" "/")
    (fun c => c.IP) rfl rfl (by decide)

/-- C3. An evaluation that is not bypassed and whose remaining = Max - hitCount
is negative calls the configured rejection handler, once, then sets Retry-After
to the decimal rendering of reset[key] - now, where reset[key] is the window
end fixed by the first hit of the window, and does not call Next. With Max = 3,
four evaluations in a row for one key that start a window are answered
admitted, admitted, admitted, rejected. -/
theorem C3_rejected_calls_handler_sets_retry_after :
    (∀ (l : Limiter) (now : Int) (c : Ctx) (keyFn : Ctx → String) (h : Ctx → Ctx),
      l.cfg.Key = some keyFn → l.cfg.Handler = some h → bypass l.cfg c = false →
      l.cfg.Max - (recordHit l now (keyFn c)).2.1 < 0 →
      ∃ (l1 : Limiter) (calls : List Call), serve l now c = some (l1, calls) ∧
        l1 = (recordHit l now (keyFn c)).1 ∧
        l1.reset.get (keyFn c) =
          (if l.reset.get (keyFn c) = 0 then now + l.cfg.Timeout
           else l.reset.get (keyFn c)) ∧
        calls = [Call.handler h,
                 Call.set "Retry-After" (Itoa (l1.reset.get (keyFn c) - now))] ∧
        calls.countP Call.isHandler = 1 ∧ calls.countP Call.isNext = 0) ∧
    (∀ (l : Limiter) (keyFn : Ctx → String) (h : Ctx → Ctx) (k : String)
      (reqs : List (Int × Ctx)),
      l.cfg.Key = some keyFn → l.cfg.Handler = some h → l.cfg.Max = 3 →
      l.hits.get k = 0 → reqs.length = 4 →
      (∀ r ∈ reqs, bypass l.cfg r.2 = false ∧ keyFn r.2 = k) →
      ∃ (l1 : Limiter) (outs : List (List Call)), serveAll l reqs = some (l1, outs) ∧
        outs.map admitted = [true, true, true, false] ∧
        outs.map rejected = [false, false, false, true]) := by
  constructor
  · intro l now c keyFn h hK hH hb hrem
    rw [recordHit_hitCount] at hrem
    refine ⟨_, _, serve_block l now c keyFn h hK hH hb hrem, rfl,
      recordHit_reset_same l now _, rfl, by simp [blockCalls, Call.isHandler],
      by simp [blockCalls, Call.isNext]⟩
  · intro l keyFn h k reqs hK hH hMax h0 hlen hreqs
    obtain ⟨l1, outs, hrun, -, hlen2, -, hout⟩ :=
      serveAll_same_key l.cfg keyFn h hK hH k reqs l rfl hreqs
    rw [hlen] at hlen2
    refine ⟨l1, outs, hrun, ?_⟩
    match outs, hlen2, hout with
    | [a, b, c, d], _, hout =>
      have ha := hout 0 (by simp)
      have hb := hout 1 (by simp)
      have hc := hout 2 (by simp)
      have hd := hout 3 (by simp)
      rw [h0, hMax] at ha hb hc hd
      obtain ⟨ta, hta⟩ := ha.1 (by norm_num)
      obtain ⟨tb, htb⟩ := hb.1 (by norm_num)
      obtain ⟨tc, htc⟩ := hc.1 (by norm_num)
      obtain ⟨td, htd⟩ := hd.2 (by norm_num)
      simp only [List.getElem_cons_zero, List.getElem_cons_succ] at hta htb htc htd
      subst hta htb htc htd
      constructor <;> rfl

/-- C3 at concrete inputs: the eleventh hit of a key with Max 10, and four
requests in a row on a new limiter with Max 3. -/
theorem C3_rejected_calls_handler_sets_retry_after_witness :
    (∃ (l1 : Limiter) (calls : List Call),
      serve { cfg := resolve [], hits := ⟨[("10.0.0.1", 10)]⟩,
              reset := ⟨[("10.0.0.1", 1060)]⟩ } 1030 (Ctx.request "10.0.0.1" "/")
        = some (l1, calls) ∧
      l1 = (recordHit { cfg := resolve [], hits := ⟨[("10.0.0.1", 10)]⟩,
                        reset := ⟨[("10.0.0.1", 1060)]⟩ } 1030 "10.0.0.1").1 ∧
      l1.reset.get "10.0.0.1" = 1060 ∧
      calls = [Call.handler (fun c => (c.Status 429).SendString
                  "Too many requests, please try again later."),
               Call.set "Retry-After" (Itoa (l1.reset.get "10.0.0.1" - 1030))] ∧
      calls.countP Call.isHandler = 1 ∧ calls.countP Call.isNext = 0) ∧
    (∃ (l1 : Limiter) (outs : List (List Call)),
      serveAll (New [{ Config.zero with Max := 3 }])
          (List.replicate 4 (1000, Ctx.request "10.0.0.1" "/")) = some (l1, outs) ∧
      outs.map admitted = [true, true, true, false] ∧
      outs.map rejected = [false, false, false, true]) :=
  ⟨C3_rejected_calls_handler_sets_retry_after.1
      { cfg := resolve [], hits := ⟨[("10.0.0.1", 10)]⟩, reset := ⟨[("10.0.0.1", 1060)]⟩ }
      1030 (Ctx.request "10.0.0.1" "/") (fun c => c.IP)
      (fun c => (c.Status 429).SendString "Too many requests, please try again later.")
      rfl rfl rfl (by decide),
   C3_rejected_calls_handler_sets_retry_after.2 (New [{ Config.zero with Max := 3 }])
      (fun c => c.IP)
      (fun c => (c.Status 429).SendString "Too many requests, please try again later.")
      "10.0.0.1" (List.replicate 4 (1000, Ctx.request "10.0.0.1" "/"))
      rfl rfl rfl rfl rfl (by decide)⟩

/-- C9. An evaluation whose key is k, bypassed or not, leaves hits[other] and
reset[other] as they were for every other key; and the calls it makes, headers
and their values included, and the entries of k afterwards are the same from
every state with the same configuration and the same hits[k] and reset[k],
whatever that state holds for the other keys. -/
theorem C9_independence (l : Limiter) (now : Int) (c : Ctx) (keyFn : Ctx → String)
    (h : Ctx → Ctx) (hK : l.cfg.Key = some keyFn) (hH : l.cfg.Handler = some h) :
    ∃ (l1 : Limiter) (calls : List Call), serve l now c = some (l1, calls) ∧
      (∀ other : String, keyFn c ≠ other →
        l1.hits.get other = l.hits.get other ∧ l1.reset.get other = l.reset.get other) ∧
      (∀ l2 : Limiter, l2.cfg = l.cfg →
        l2.hits.get (keyFn c) = l.hits.get (keyFn c) →
        l2.reset.get (keyFn c) = l.reset.get (keyFn c) →
        ∃ l3 : Limiter, serve l2 now c = some (l3, calls) ∧
          l3.hits.get (keyFn c) = l1.hits.get (keyFn c) ∧
          l3.reset.get (keyFn c) = l1.reset.get (keyFn c)) := by
  by_cases hb : bypass l.cfg c = true
  · refine ⟨l, [Call.next], serve_bypass l now c hb, fun _ _ => ⟨rfl, rfl⟩, ?_⟩
    intro l2 hcfg hh hr
    exact ⟨l2, serve_bypass l2 now c (by rw [hcfg]; exact hb), hh, hr⟩
  · have hb0 : bypass l.cfg c = false := by simpa using hb
    have hframe : ∀ other : String, keyFn c ≠ other →
        (recordHit l now (keyFn c)).1.hits.get other = l.hits.get other ∧
        (recordHit l now (keyFn c)).1.reset.get other = l.reset.get other :=
      fun other hne => ⟨recordHit_hits_other l now _ other hne,
        recordHit_reset_other l now _ other hne⟩
    have hsame : ∀ l2 : Limiter, l2.cfg = l.cfg →
        l2.hits.get (keyFn c) = l.hits.get (keyFn c) →
        l2.reset.get (keyFn c) = l.reset.get (keyFn c) →
        (recordHit l2 now (keyFn c)).1.hits.get (keyFn c)
          = (recordHit l now (keyFn c)).1.hits.get (keyFn c) ∧
        (recordHit l2 now (keyFn c)).1.reset.get (keyFn c)
          = (recordHit l now (keyFn c)).1.reset.get (keyFn c) := by
      intro l2 hcfg hh hr
      rw [recordHit_hits_same, recordHit_hits_same, recordHit_reset_same,
        recordHit_reset_same, hh, hr, hcfg]
      exact ⟨rfl, rfl⟩
    by_cases hrem : l.cfg.Max - (l.hits.get (keyFn c) + 1) < 0
    · refine ⟨_, _, serve_block l now c keyFn h hK hH hb0 hrem, hframe, ?_⟩
      intro l2 hcfg hh hr
      obtain ⟨e1, e2⟩ := hsame l2 hcfg hh hr
      refine ⟨_, ?_, e1, e2⟩
      rw [serve_block l2 now c keyFn h (by rw [hcfg]; exact hK) (by rw [hcfg]; exact hH)
        (by rw [hcfg]; exact hb0) (by rw [hcfg, hh]; exact hrem), e2]
    · have hrem2 : 0 ≤ l.cfg.Max - (l.hits.get (keyFn c) + 1) := by omega
      refine ⟨_, _, serve_pass l now c keyFn hK hb0 hrem2, hframe, ?_⟩
      intro l2 hcfg hh hr
      obtain ⟨e1, e2⟩ := hsame l2 hcfg hh hr
      refine ⟨_, ?_, e1, e2⟩
      rw [serve_pass l2 now c keyFn (by rw [hcfg]; exact hK)
        (by rw [hcfg]; exact hb0) (by rw [hcfg, hh]; exact hrem2), e2, hcfg, hh]

/-- C9 on a state that holds two keys: a request of 10.0.0.1 leaves the
entries of every other key alone. -/
theorem C9_independence_witness :
    ∃ (l1 : Limiter) (calls : List Call),
      serve { cfg := resolve [], hits := ⟨[("10.0.0.1", 2), ("10.0.0.2", 7)]⟩,
              reset := ⟨[("10.0.0.1", 1060), ("10.0.0.2", 1050)]⟩ }
          1000 (Ctx.request "10.0.0.1" "/") = some (l1, calls) ∧
      (∀ other : String, "10.0.0.1" ≠ other →
        l1.hits.get other = lookup [("10.0.0.1", 2), ("10.0.0.2", 7)] other ∧
        l1.reset.get other = lookup [("10.0.0.1", 1060), ("10.0.0.2", 1050)] other) ∧
      (∀ l2 : Limiter, l2.cfg = resolve [] →
        l2.hits.get "10.0.0.1" = 2 → l2.reset.get "10.0.0.1" = 1060 →
        ∃ l3 : Limiter, serve l2 1000 (Ctx.request "10.0.0.1" "/") = some (l3, calls) ∧
          l3.hits.get "10.0.0.1" = l1.hits.get "10.0.0.1" ∧
          l3.reset.get "10.0.0.1" = l1.reset.get "10.0.0.1") :=
  C9_independence
    { cfg := resolve [], hits := ⟨[("10.0.0.1", 2), ("10.0.0.2", 7)]⟩,
      reset := ⟨[("10.0.0.1", 1060), ("10.0.0.2", 1050)]⟩ }
    1000 (Ctx.request "10.0.0.1" "/") (fun c => c.IP)
    (fun c => (c.Status 429).SendString "Too many requests, please try again later.")
    rfl rfl

/-! ## Claims on runs of evaluations -/

/-- C1. For every key k and every resolved configuration with Max = m > 0, from
a state with hits[k] = 0, in a run of n evaluations for k that are not
bypassed, with any clock values and no sweeper pass in between, the i-th
evaluation, counted from 1, is admitted if and only if i <= m and rejected if
and only if i > m; so min(m, n) evaluations are admitted. -/
theorem C1_admitted_iff_within_Max (l : Limiter) (keyFn : Ctx → String) (h : Ctx → Ctx)
    (hK : l.cfg.Key = some keyFn) (hH : l.cfg.Handler = some h)
    (m : Int) (hm : l.cfg.Max = m) (hpos : 0 < m) (k : String) (h0 : l.hits.get k = 0)
    (reqs : List (Int × Ctx))
    (hreqs : ∀ r ∈ reqs, bypass l.cfg r.2 = false ∧ keyFn r.2 = k) :
    ∃ (l1 : Limiter) (outs : List (List Call)), serveAll l reqs = some (l1, outs) ∧
      outs.length = reqs.length ∧
      (∀ (i : Nat) (hi : i < outs.length),
        (admitted outs[i] = true ↔ (i : Int) + 1 ≤ m) ∧
        (rejected outs[i] = true ↔ m < (i : Int) + 1)) ∧
      (outs.countP admitted : Int) = min m reqs.length := by
  obtain ⟨l1, outs, hrun, -, hlen, -, hout⟩ :=
    serveAll_same_key l.cfg keyFn h hK hH k reqs l rfl hreqs
  have hidx : ∀ (i : Nat) (hi : i < outs.length),
      (admitted outs[i] = true ↔ (i : Int) + 1 ≤ m) ∧
      (rejected outs[i] = true ↔ m < (i : Int) + 1) := by
    intro i hi
    obtain ⟨hp, hbk⟩ := hout i hi
    rw [h0, hm] at hp hbk
    by_cases hle : (i : Int) + 1 ≤ m
    · obtain ⟨t, ht⟩ := hp (by omega)
      rw [ht, (admitted_passCalls _ _ _).1, (admitted_passCalls _ _ _).2]
      constructor
      · exact ⟨fun _ => hle, fun _ => rfl⟩
      · constructor
        · intro hf; exact absurd hf (by simp)
        · intro hf; omega
    · obtain ⟨t, ht⟩ := hbk (by omega)
      rw [ht, (rejected_blockCalls _ _).1, (rejected_blockCalls _ _).2]
      constructor
      · constructor
        · intro hf; exact absurd hf (by simp)
        · intro hf; omega
      · exact ⟨fun _ => by omega, fun _ => rfl⟩
  refine ⟨l1, outs, hrun, hlen, hidx, ?_⟩
  have hcount := countP_threshold admitted m outs 0
    (fun i hi => by rw [(hidx i hi).1]; constructor <;> intro hh <;> omega)
  rw [hcount, hlen]
  omega

/-- C1 on a new limiter with Max 2 and three requests of one address. -/
theorem C1_admitted_iff_within_Max_witness :
    ∃ (l1 : Limiter) (outs : List (List Call)),
      serveAll (New [{ Config.zero with Max := 2 }])
          [(1000, Ctx.request "10.0.0.1" "/"), (1001, Ctx.request "10.0.0.1" "/a"),
           (1075, Ctx.request "10.0.0.1" "/")] = some (l1, outs) ∧
      outs.length = 3 ∧
      (∀ (i : Nat) (hi : i < outs.length),
        (admitted outs[i] = true ↔ (i : Int) + 1 ≤ 2) ∧
        (rejected outs[i] = true ↔ 2 < (i : Int) + 1)) ∧
      (outs.countP admitted : Int) = min 2 (3 : Nat) :=
  C1_admitted_iff_within_Max (New [{ Config.zero with Max := 2 }]) (fun c => c.IP)
    (fun c => (c.Status 429).SendString "Too many requests, please try again later.")
    rfl rfl 2 rfl (by decide) "10.0.0.1" rfl
    [(1000, Ctx.request "10.0.0.1" "/"), (1001, Ctx.request "10.0.0.1" "/a"),
     (1075, Ctx.request "10.0.0.1" "/")] (by decide)

/-! ## Claims on the test -/

/-- C2 at the input of Test_Concurrency, Max = 100 and 101 requests of one
address within one window: the handler answers the first 100 with status 200
and the body of the downstream handler, and the one whose counter update comes
last with status 429 and the rejection message, where the test and the claim
demand status 200 and the downstream body for every one of the 101. -/
theorem C2_request_101_is_rejected :
    (responses helloTester (New [{ Config.zero with Max := 100 }])
        (List.replicate 101 (1000, Ctx.request "0.0.0.0" "/"))).map
      (fun rs => rs.map (fun c => (c.status, c.body)))
    = some (List.replicate 100 (200, "Hello tester!") ++
        [(429, "Too many requests, please try again later.")]) := by
  decide

/-- What the handler does with one request more than Max, for every m >= 1: on
a new limiter with Max = m and the default Timeout, of m + 1 requests of one
address served within one window, in whatever order their counter updates are
applied, the first m are admitted and get status 200 with the body of the
downstream handler, and the last one is rejected: it gets status 429 and the
rejection message. -/
theorem one_request_beyond_Max_is_rejected (m : Nat) (hm : 1 ≤ m) (ip : String)
    (reqs : List (Int × Ctx)) (hlen : reqs.length = m + 1)
    (hreq : ∀ r ∈ reqs, r.2.ip = ip ∧ r.2.status = 200) :
    ∃ (l1 : Limiter) (outs : List (List Call)) (rs : List Ctx),
      serveAll (New [{ Config.zero with Max := (m : Int) }]) reqs = some (l1, outs) ∧
      responses helloTester (New [{ Config.zero with Max := (m : Int) }]) reqs = some rs ∧
      outs.length = m + 1 ∧ rs.length = m + 1 ∧
      (∀ (i : Nat) (ho : i < outs.length) (hr : i < rs.length), i < m →
        admitted outs[i] = true ∧ rejected outs[i] = false ∧
        rs[i].status = 200 ∧ rs[i].body = "Hello tester!") ∧
      (∀ (ho : m < outs.length) (hr : m < rs.length),
        admitted outs[m] = false ∧ rejected outs[m] = true ∧
        rs[m].status = 429 ∧
        rs[m].body = "Too many requests, please try again later.") := by
  have hm0 : (m : Int) ≠ 0 := by omega
  obtain ⟨hK, hH, hMax, -, hbp⟩ := resolve_Max_only (m : Int) hm0
  have hall : ∀ r ∈ reqs,
      bypass (New [{ Config.zero with Max := (m : Int) }]).cfg r.2 = false ∧
      (fun c : Ctx => c.IP) r.2 = ip :=
    fun r hr => ⟨hbp r.2, (hreq r hr).1⟩
  obtain ⟨l1, outs, hrun, -, hlen2, -, hout⟩ :=
    serveAll_same_key (New [{ Config.zero with Max := (m : Int) }]).cfg (fun c => c.IP) _
      hK hH ip reqs _ rfl hall
  have hlo : outs.length = m + 1 := by rw [hlen2, hlen]
  have hrs : responses helloTester (New [{ Config.zero with Max := (m : Int) }]) reqs
      = some (List.zipWith (fun calls r => execAll helloTester calls r.2) outs reqs) := by
    simp [responses, hrun]
  refine ⟨l1, outs, _, hrun, hrs, hlo, by simp [hlo, hlen], ?_, ?_⟩
  · intro i ho hr hi
    obtain ⟨t, ht⟩ := (hout i ho).1 (by
      show (New [{ Config.zero with Max := (m : Int) }]).hits.get ip + (i : Int) + 1
        ≤ (resolve [{ Config.zero with Max := (m : Int) }]).Max
      rw [hMax]
      have : (New [{ Config.zero with Max := (m : Int) }]).hits.get ip = 0 := rfl
      omega)
    have hri : i < reqs.length := by omega
    have hst := (hreq reqs[i] (List.getElem_mem _)).2
    rw [List.getElem_zipWith, ht]
    refine ⟨(admitted_passCalls _ _ _).1, (admitted_passCalls _ _ _).2, ?_, ?_⟩
    · rw [(execAll_passCalls_helloTester _ _ _ _).1]; exact hst
    · exact (execAll_passCalls_helloTester _ _ _ _).2
  · intro ho hr
    obtain ⟨t, ht⟩ := (hout m ho).2 (by
      show (resolve [{ Config.zero with Max := (m : Int) }]).Max
        < (New [{ Config.zero with Max := (m : Int) }]).hits.get ip + (m : Int) + 1
      rw [hMax]
      have : (New [{ Config.zero with Max := (m : Int) }]).hits.get ip = 0 := rfl
      omega)
    rw [List.getElem_zipWith, ht]
    exact ⟨(rejected_blockCalls _ _).1, (rejected_blockCalls _ _).2,
      (execAll_blockCalls_default _ _ _ _ _).1, (execAll_blockCalls_default _ _ _ _ _).2⟩

/-! ## Claims on the sweeper and on the window end -/

/-- C11. For every state and clock value now, after one pass of the sweeper
every key k with reset[k] not 0 and reset[k] <= now has hits[k] = 0 and
reset[k] = 0, every other key has the hits and reset it had, and the
configuration is untouched; the order in which the loop visits the keys does
not matter. -/
theorem C11_sweep_postcondition (l : Limiter) (now : Int) (k : String) :
    (l.reset.get k ≠ 0 ∧ l.reset.get k ≤ now →
      (sweep l now).hits.get k = 0 ∧ (sweep l now).reset.get k = 0) ∧
    (¬ (l.reset.get k ≠ 0 ∧ l.reset.get k ≤ now) →
      (sweep l now).hits.get k = l.hits.get k ∧
      (sweep l now).reset.get k = l.reset.get k) ∧
    (sweep l now).cfg = l.cfg ∧
    (∀ ks : List String, ks.Perm l.reset.keys →
      (ks.foldl (sweepKey now) l).hits.get k = (sweep l now).hits.get k ∧
      (ks.foldl (sweepKey now) l).reset.get k = (sweep l now).reset.get k) := by
  obtain ⟨hh, hr⟩ := sweep_get l now k
  refine ⟨?_, ?_, sweep_cfg l now, ?_⟩
  · intro hc
    have hc2 : l.reset.get k ≠ 0 ∧ now ≥ l.reset.get k := hc
    rw [hh, hr, if_pos hc2, if_pos hc2]
    exact ⟨rfl, rfl⟩
  · intro hc
    have hc2 : ¬ (l.reset.get k ≠ 0 ∧ now ≥ l.reset.get k) := hc
    rw [hh, hr, if_neg hc2, if_neg hc2]
    exact ⟨rfl, rfl⟩
  · intro ks hperm
    obtain ⟨fh, fr⟩ := foldl_sweepKey_get now k ks l
    obtain ⟨gh, gr⟩ := foldl_sweepKey_get now k l.reset.keys l
    have hmem : k ∈ ks ↔ k ∈ l.reset.keys := hperm.mem_iff
    unfold sweep
    rw [fh, fr, gh, gr]
    simp only [hmem]
    exact ⟨trivial, trivial⟩

/-- C11 on a store with an expired key and a key whose window is still open. -/
theorem C11_sweep_postcondition_witness :
    ((sweep { cfg := resolve [], hits := ⟨[("10.0.0.1", 4), ("10.0.0.2", 9)]⟩,
              reset := ⟨[("10.0.0.1", 1060), ("10.0.0.2", 1090)]⟩ } 1070).hits.get
        "10.0.0.1" = 0 ∧
     (sweep { cfg := resolve [], hits := ⟨[("10.0.0.1", 4), ("10.0.0.2", 9)]⟩,
              reset := ⟨[("10.0.0.1", 1060), ("10.0.0.2", 1090)]⟩ } 1070).reset.get
        "10.0.0.1" = 0) ∧
    ((sweep { cfg := resolve [], hits := ⟨[("10.0.0.1", 4), ("10.0.0.2", 9)]⟩,
              reset := ⟨[("10.0.0.1", 1060), ("10.0.0.2", 1090)]⟩ } 1070).hits.get
        "10.0.0.2" = 9 ∧
     (sweep { cfg := resolve [], hits := ⟨[("10.0.0.1", 4), ("10.0.0.2", 9)]⟩,
              reset := ⟨[("10.0.0.1", 1060), ("10.0.0.2", 1090)]⟩ } 1070).reset.get
        "10.0.0.2" = 1090) :=
  ⟨(C11_sweep_postcondition
      { cfg := resolve [], hits := ⟨[("10.0.0.1", 4), ("10.0.0.2", 9)]⟩,
        reset := ⟨[("10.0.0.1", 1060), ("10.0.0.2", 1090)]⟩ } 1070 "10.0.0.1").1
      (by decide),
   (C11_sweep_postcondition
      { cfg := resolve [], hits := ⟨[("10.0.0.1", 4), ("10.0.0.2", 9)]⟩,
        reset := ⟨[("10.0.0.1", 1060), ("10.0.0.2", 1090)]⟩ } 1070 "10.0.0.2").2.1
      (by decide)⟩

/-- C12. An evaluation for a key k with reset[k] not 0, admitted or rejected
and at any clock value, leaves reset[k] as it was; and whenever an event
changes a reset[k] that was not 0, the event is the sweeper looking at k at a
clock value now with reset[k] <= now, and it leaves reset[k] = 0. -/
theorem C12_window_end_set_once :
    (∀ (l : Limiter) (now : Int) (c : Ctx) (keyFn : Ctx → String) (h : Ctx → Ctx),
      l.cfg.Key = some keyFn → l.cfg.Handler = some h → bypass l.cfg c = false →
      l.reset.get (keyFn c) ≠ 0 →
      ∃ (l1 : Limiter) (calls : List Call), serve l now c = some (l1, calls) ∧
        l1.reset.get (keyFn c) = l.reset.get (keyFn c)) ∧
    (∀ (l l1 : Limiter) (e : Event) (k : String),
      step l e = some l1 → l.reset.get k ≠ 0 → l1.reset.get k ≠ l.reset.get k →
      (∃ now : Int, (e = Event.sweep now ∨ e = Event.sweepKey now k) ∧
        l.reset.get k ≤ now) ∧
      l1.reset.get k = 0) := by
  constructor
  · intro l now c keyFn h hK hH hb hne
    have hkeep : (recordHit l now (keyFn c)).1.reset.get (keyFn c) = l.reset.get (keyFn c) := by
      rw [recordHit_reset_same, if_neg hne]
    by_cases hrem : l.cfg.Max - (l.hits.get (keyFn c) + 1) < 0
    · exact ⟨_, _, serve_block l now c keyFn h hK hH hb hrem, hkeep⟩
    · exact ⟨_, _, serve_pass l now c keyFn hK hb (by omega), hkeep⟩
  · intro l l1 e k hs hne hch
    cases e with
    | request t117 t122 c =>
      exfalso
      apply hch
      rcases step_request l t117 t122 c l1 hs with ⟨-, h⟩ | ⟨keyFn, -, -, h⟩
      · rw [h]
      · rw [h]
        by_cases hk : keyFn c = k
        · rw [← hk, recordHit64_reset_same, if_neg (by rw [hk]; exact hne)]
        · exact recordHit64_reset_other l t117 t122 _ k hk
    | sweepKey t key =>
      simp only [step, Option.some.injEq] at hs
      subst hs
      by_cases hk : key = k
      · subst hk
        obtain ⟨-, hr⟩ := sweepKey_same t l key
        by_cases hc : l.reset.get key ≠ 0 ∧ t ≥ l.reset.get key
        · rw [if_pos hc] at hr
          exact ⟨⟨t, Or.inr rfl, hc.2⟩, hr⟩
        · rw [if_neg hc] at hr
          exact absurd hr hch
      · exact absurd (sweepKey_other t l key k hk).2 hch
    | sweep t =>
      simp only [step, Option.some.injEq] at hs
      subst hs
      obtain ⟨-, hr⟩ := sweep_get l t k
      by_cases hc : l.reset.get k ≠ 0 ∧ t ≥ l.reset.get k
      · rw [if_pos hc] at hr
        exact ⟨⟨t, Or.inl rfl, hc.2⟩, hr⟩
      · rw [if_neg hc] at hr
        exact absurd hr hch
    | abort => simp [step] at hs

/-- C12 on a key whose window ends at 1060: a request at 1100 keeps the end,
a pass of the sweeper at 1100 that changes it sets it to 0. -/
theorem C12_window_end_set_once_witness :
    (∃ (l1 : Limiter) (calls : List Call),
      serve { cfg := resolve [], hits := ⟨[("10.0.0.1", 4)]⟩,
              reset := ⟨[("10.0.0.1", 1060)]⟩ } 1100 (Ctx.request "10.0.0.1" "/")
        = some (l1, calls) ∧
      l1.reset.get "10.0.0.1" = 1060) ∧
    ((∃ now : Int, (Event.sweep 1100 = Event.sweep now ∨
        Event.sweep 1100 = Event.sweepKey now "10.0.0.1") ∧ 1060 ≤ now) ∧
      (sweep { cfg := resolve [], hits := ⟨[("10.0.0.1", 4)]⟩,
               reset := ⟨[("10.0.0.1", 1060)]⟩ } 1100).reset.get "10.0.0.1" = 0) :=
  ⟨C12_window_end_set_once.1
      { cfg := resolve [], hits := ⟨[("10.0.0.1", 4)]⟩, reset := ⟨[("10.0.0.1", 1060)]⟩ }
      1100 (Ctx.request "10.0.0.1" "/") (fun c => c.IP)
      (fun c => (c.Status 429).SendString "Too many requests, please try again later.")
      rfl rfl rfl (by decide),
   C12_window_end_set_once.2
      { cfg := resolve [], hits := ⟨[("10.0.0.1", 4)]⟩, reset := ⟨[("10.0.0.1", 1060)]⟩ }
      (sweep { cfg := resolve [], hits := ⟨[("10.0.0.1", 4)]⟩,
               reset := ⟨[("10.0.0.1", 1060)]⟩ } 1100)
      (Event.sweep 1100) "10.0.0.1" rfl (by decide) (by decide)⟩

/-! ## Claims on the configuration, continued -/

/-- C16. For every argument list of New with a first element c, each of
Timeout, Max, StatusCode and Message of c that is not the zero value is kept
as given, the Key, Handler and Filter of c are kept when given, and the
arguments after the first are not used. -/
theorem C16_given_fields_are_kept (c : Config) (rest : List Config) :
    (c.Timeout ≠ 0 → (New (c :: rest)).cfg.Timeout = c.Timeout) ∧
    (c.Max ≠ 0 → (New (c :: rest)).cfg.Max = c.Max) ∧
    (c.StatusCode ≠ 0 → (New (c :: rest)).cfg.StatusCode = c.StatusCode) ∧
    (c.Message ≠ "" → (New (c :: rest)).cfg.Message = c.Message) ∧
    (∀ f : Ctx → String, c.Key = some f → (New (c :: rest)).cfg.Key = some f) ∧
    (∀ h : Ctx → Ctx, c.Handler = some h → (New (c :: rest)).cfg.Handler = some h) ∧
    (New (c :: rest)).cfg.Filter = c.Filter ∧
    New (c :: rest) = New [c] := by
  refine ⟨?_, ?_, ?_, ?_, ?_, ?_, ?_, rfl⟩
  · intro hne
    show (resolve (c :: rest)).Timeout = c.Timeout
    rw [resolve_Timeout, given_cons, if_neg hne]
  · intro hne
    show (resolve (c :: rest)).Max = c.Max
    rw [resolve_Max, given_cons, if_neg hne]
  · intro hne
    show (resolve (c :: rest)).StatusCode = c.StatusCode
    rw [resolve_StatusCode, given_cons, if_neg hne]
  · intro hne
    show (resolve (c :: rest)).Message = c.Message
    rw [resolve_Message, given_cons, if_neg hne]
  · intro f hf
    show (resolve (c :: rest)).Key = some f
    rw [resolve_Key, given_cons, hf]
  · intro h hh
    show (resolve (c :: rest)).Handler = some h
    rw [resolve_Handler, given_cons, hh]
  · show (resolve (c :: rest)).Filter = c.Filter
    rw [resolve_Filter, given_cons]

/-- C16 on two arguments: the fields of the first are kept, the second is not
looked at. -/
theorem C16_given_fields_are_kept_witness :
    (New [{ Config.zero with Timeout := 30, Max := 5, StatusCode := 503, Message := "slow down" },
          { Config.zero with Timeout := 99 }]).cfg.Timeout = 30 ∧
    (New [{ Config.zero with Timeout := 30, Max := 5, StatusCode := 503, Message := "slow down" },
          { Config.zero with Timeout := 99 }]).cfg.Max = 5 ∧
    (New [{ Config.zero with Timeout := 30, Max := 5, StatusCode := 503, Message := "slow down" },
          { Config.zero with Timeout := 99 }]).cfg.StatusCode = 503 ∧
    (New [{ Config.zero with Timeout := 30, Max := 5, StatusCode := 503, Message := "slow down" },
          { Config.zero with Timeout := 99 }]).cfg.Message = "slow down" :=
  ⟨(C16_given_fields_are_kept
      { Config.zero with Timeout := 30, Max := 5, StatusCode := 503, Message := "slow down" }
      [{ Config.zero with Timeout := 99 }]).1 (by decide),
   (C16_given_fields_are_kept
      { Config.zero with Timeout := 30, Max := 5, StatusCode := 503, Message := "slow down" }
      [{ Config.zero with Timeout := 99 }]).2.1 (by decide),
   (C16_given_fields_are_kept
      { Config.zero with Timeout := 30, Max := 5, StatusCode := 503, Message := "slow down" }
      [{ Config.zero with Timeout := 99 }]).2.2.1 (by decide),
   (C16_given_fields_are_kept
      { Config.zero with Timeout := 30, Max := 5, StatusCode := 503, Message := "slow down" }
      [{ Config.zero with Timeout := 99 }]).2.2.2.1 (by decide)⟩

/-! ## Claims on one evaluation on machine integers -/

/-- C10, as stated, fails twice. With Timeout = 9223372036854775807, which New
keeps, and the clock at 1000, the sum of line 117 wraps around: the first hit
stores reset[key] = -9223372036854774809, not now + Timeout. And the clock is
read at line 117 and again at line 122: with the reads 1000 and 1001 and
Timeout 60 the section stores reset[key] = 1060 and reports resetTime = 59, so
no one value of now gives both reset[key] = now + Timeout and
resetTime + now = reset[key]. -/
theorem C10_window_end_wraps_and_clock_is_read_twice :
    ((recordHit64 (New [{ Config.zero with Timeout := 9223372036854775807 }])
        1000 1000 "10.0.0.1").1.reset.get "10.0.0.1" = -9223372036854774809 ∧
      (New [{ Config.zero with Timeout := 9223372036854775807 }]).reset.get "10.0.0.1" = 0 ∧
      ¬ ((recordHit64 (New [{ Config.zero with Timeout := 9223372036854775807 }])
          1000 1000 "10.0.0.1").1.reset.get "10.0.0.1"
        = 1000 + (New [{ Config.zero with Timeout := 9223372036854775807 }]).cfg.Timeout)) ∧
    ((recordHit64 (New []) 1000 1001 "10.0.0.1").1.reset.get "10.0.0.1" = 1060 ∧
      (recordHit64 (New []) 1000 1001 "10.0.0.1").2.2 = 59 ∧
      ¬ ((recordHit64 (New []) 1000 1001 "10.0.0.1").2.2 + 1000
        = (recordHit64 (New []) 1000 1001 "10.0.0.1").1.reset.get "10.0.0.1") ∧
      ¬ ((recordHit64 (New []) 1000 1001 "10.0.0.1").1.reset.get "10.0.0.1"
        = 1001 + (New []).cfg.Timeout)) := by
  decide

/-- C10, amended. For every state, key and clock values now1, read at line 117,
and now2, read at line 122, the section under the mutex raises hits[key] by
exactly 1 and yields the count after the increment as hitCount; a reset[key]
that was 0 becomes now1 + Timeout reduced to the range of int, which is
now1 + Timeout when that sum is in the range, and a reset[key] that was not 0
is kept; resetTime is reset[key] - now2 reduced to the range of int, so
resetTime + now2 is reset[key] after the step when that difference is in the
range. -/
theorem C10_recordHit64_postcondition (l : Limiter) (now1 now2 : Int) (key : String) :
    (recordHit64 l now1 now2 key).1.hits.get key = l.hits.get key + 1 ∧
    (recordHit64 l now1 now2 key).2.1 = (recordHit64 l now1 now2 key).1.hits.get key ∧
    (l.reset.get key = 0 →
      (recordHit64 l now1 now2 key).1.reset.get key = wrap (now1 + l.cfg.Timeout)) ∧
    (l.reset.get key = 0 → isInt (now1 + l.cfg.Timeout) →
      (recordHit64 l now1 now2 key).1.reset.get key = now1 + l.cfg.Timeout) ∧
    (l.reset.get key ≠ 0 →
      (recordHit64 l now1 now2 key).1.reset.get key = l.reset.get key) ∧
    (recordHit64 l now1 now2 key).2.2
      = wrap ((recordHit64 l now1 now2 key).1.reset.get key - now2) ∧
    (isInt ((recordHit64 l now1 now2 key).1.reset.get key - now2) →
      (recordHit64 l now1 now2 key).2.2 + now2
        = (recordHit64 l now1 now2 key).1.reset.get key) := by
  refine ⟨recordHit64_hits_same l now1 now2 key, ?_, ?_, ?_, ?_, recordHit64_resetTime _ _ _ _,
    ?_⟩
  · rw [recordHit64_hitCount, recordHit64_hits_same]
  · intro h0
    rw [recordHit64_reset_same, if_pos h0]
  · intro h0 hin
    rw [recordHit64_reset_same, if_pos h0, wrap_of_isInt _ hin]
  · intro hne
    rw [recordHit64_reset_same, if_neg hne]
  · intro hin
    rw [recordHit64_resetTime, wrap_of_isInt _ hin]
    omega

/-- C10 on the first hit of a key of a new limiter, the clock read as 1000 and
then as 1001. -/
theorem C10_recordHit64_postcondition_witness :
    (recordHit64 (New []) 1000 1001 "10.0.0.1").1.hits.get "10.0.0.1" = 1 ∧
    (recordHit64 (New []) 1000 1001 "10.0.0.1").2.1 = 1 ∧
    (recordHit64 (New []) 1000 1001 "10.0.0.1").1.reset.get "10.0.0.1"
      = 1000 + (New []).cfg.Timeout ∧
    (recordHit64 (New []) 1000 1001 "10.0.0.1").2.2 + 1001
      = (recordHit64 (New []) 1000 1001 "10.0.0.1").1.reset.get "10.0.0.1" :=
  ⟨by decide, by decide,
   (C10_recordHit64_postcondition (New []) 1000 1001 "10.0.0.1").2.2.2.1 (by decide)
     (by decide),
   (C10_recordHit64_postcondition (New []) 1000 1001 "10.0.0.1").2.2.2.2.2.2 (by decide)⟩

/-! ## Claims on the roll over of a window -/

/-- C7, as stated, fails at two places. With Max = -1, which New keeps, the
first hit of the new window has hitCount 1 and is rejected. With Timeout =
-1700000000, a window opened at clock value 1700000000 has reset[k] = 0, the
sweeper skips the key and the next evaluation goes on with the old count. -/
theorem C7_first_hit_not_always_admitted :
    ((serve64 (sweep { cfg := resolve [{ Config.zero with Max := -1 }],
                       hits := ⟨[("10.0.0.1", 7)]⟩, reset := ⟨[("10.0.0.1", 1000 + 60)]⟩ }
            1060)
          1061 1061 (Ctx.request "10.0.0.1" "/")).map
        (fun r => (r.1.hits.get "10.0.0.1", r.1.reset.get "10.0.0.1", admitted r.2,
          rejected r.2))
      = some (1, 1061 + 60, false, true)) ∧
    ((serve64 (sweep { cfg := resolve [{ Config.zero with Timeout := -1700000000 }],
                       hits := ⟨[("10.0.0.1", 7)]⟩,
                       reset := ⟨[("10.0.0.1", 1700000000 + -1700000000)]⟩ } 1700000001)
          1700000001 1700000001 (Ctx.request "10.0.0.1" "/")).map
        (fun r => (r.1.hits.get "10.0.0.1", admitted r.2, rejected r.2))
      = some (8, true, false)) := by
  constructor <;> decide

/-- C7, amended. For every key k with an open window, reset[k] not being 0
whenever it was opened, and any count, once the clock value now is at least
reset[k] and one sweeper pass has run at now, the next evaluation for k,
reading the clock as now1 at line 117 and as now2 at line 122, has hitCount 1
and leaves hits[k] = 1 and reset[k] = now1 + Timeout, reduced to the range of
int; it computes remaining = Max - 1 and the reset time reset[k] - now2, both
reduced to the range of int; it is admitted with these values when
remaining >= 0 and rejected when remaining < 0; so for every Max >= 1 it is
admitted, and the reset time is Timeout when now2 = now1. -/
theorem C7_reset_then_first_hit (l : Limiter) (keyFn : Ctx → String) (h : Ctx → Ctx)
    (hK : l.cfg.Key = some keyFn) (hH : l.cfg.Handler = some h) (k : String)
    (now now1 now2 : Int) (c : Ctx) (hset : l.reset.get k ≠ 0)
    (hexp : l.reset.get k ≤ now) (hb : bypass l.cfg c = false) (hkey : keyFn c = k) :
    (recordHit64 (sweep l now) now1 now2 k).2.1 = 1 ∧
    ∃ (l1 : Limiter) (calls : List Call),
      serve64 (sweep l now) now1 now2 c = some (l1, calls) ∧
      l1.hits.get k = 1 ∧ l1.reset.get k = wrap (now1 + l.cfg.Timeout) ∧
      (isInt (now1 + l.cfg.Timeout) → l1.reset.get k = now1 + l.cfg.Timeout) ∧
      (minInt < l.cfg.Max → l.cfg.Max ≤ maxInt → wrap (l.cfg.Max - 1) = l.cfg.Max - 1) ∧
      (isInt l.cfg.Timeout → now2 = now1 → wrap (l1.reset.get k - now2) = l.cfg.Timeout) ∧
      (0 ≤ wrap (l.cfg.Max - 1) →
        calls =
          [Call.set "X-RateLimit-Limit" (Itoa l.cfg.Max),
           Call.set "X-RateLimit-Remaining" (Itoa (wrap (l.cfg.Max - 1))),
           Call.set "X-RateLimit-Reset" (Itoa (wrap (l1.reset.get k - now2))),
           Call.next] ∧
        admitted calls = true ∧ rejected calls = false) ∧
      (wrap (l.cfg.Max - 1) < 0 →
        calls = [Call.handler h,
                 Call.set "Retry-After" (Itoa (wrap (l1.reset.get k - now2)))] ∧
        admitted calls = false ∧ rejected calls = true) ∧
      (1 ≤ l.cfg.Max → l.cfg.Max ≤ maxInt → admitted calls = true) := by
  have hcond : l.reset.get k ≠ 0 ∧ now ≥ l.reset.get k := ⟨hset, hexp⟩
  obtain ⟨hh, hr⟩ := sweep_get l now k
  rw [if_pos hcond] at hh hr
  have hcfg := sweep_cfg l now
  have hcount : (recordHit64 (sweep l now) now1 now2 k).2.1 = 1 := by
    rw [recordHit64_hitCount, hh]; rfl
  refine ⟨hcount, ?_⟩
  subst hkey
  have hK1 : (sweep l now).cfg.Key = some keyFn := by rw [hcfg]; exact hK
  have hH1 : (sweep l now).cfg.Handler = some h := by rw [hcfg]; exact hH
  have hb1 : bypass (sweep l now).cfg c = false := by rw [hcfg]; exact hb
  have hreset : (recordHit64 (sweep l now) now1 now2 (keyFn c)).1.reset.get (keyFn c)
      = wrap (now1 + l.cfg.Timeout) := by
    rw [recordHit64_reset_same, if_pos hr, hcfg]
  have hhits : (recordHit64 (sweep l now) now1 now2 (keyFn c)).1.hits.get (keyFn c) = 1 := by
    rw [recordHit64_hits_same, hh]; rfl
  have hrem : (sweep l now).cfg.Max - ((sweep l now).hits.get (keyFn c) + 1)
      = l.cfg.Max - 1 := by
    rw [hcfg, hh]; ring
  have hwrapMax : minInt < l.cfg.Max → l.cfg.Max ≤ maxInt →
      wrap (l.cfg.Max - 1) = l.cfg.Max - 1 := by
    intro h1 h2
    apply wrap_of_isInt
    simp only [isInt, minInt, maxInt] at h1 h2 ⊢
    omega
  have hsame : isInt l.cfg.Timeout → now2 = now1 →
      wrap (wrap (now1 + l.cfg.Timeout) - now2) = l.cfg.Timeout := by
    intro hT he
    rw [wrap_sub_wrap, he]
    have e : now1 + l.cfg.Timeout - now1 = l.cfg.Timeout := by omega
    rw [e]
    exact wrap_of_isInt _ hT
  by_cases hneg : wrap (l.cfg.Max - 1) < 0
  · have hs := serve64_block (sweep l now) now1 now2 c keyFn h hK1 hH1 hb1
      (by rw [hrem]; exact hneg)
    refine ⟨_, _, hs, hhits, hreset, ?_, hwrapMax, ?_, ?_, ?_, ?_⟩
    · intro hin
      rw [hreset, wrap_of_isInt _ hin]
    · rw [hreset]; exact hsame
    · intro hpos
      omega
    · intro _
      exact ⟨rfl, (rejected_blockCalls _ _).1, (rejected_blockCalls _ _).2⟩
    · intro h1 h2
      have := hwrapMax (by simp only [minInt]; omega) h2
      omega
  · have hs := serve64_pass (sweep l now) now1 now2 c keyFn hK1 hb1
      (by rw [hrem]; omega)
    refine ⟨_, _, hs, hhits, hreset, ?_, hwrapMax, ?_, ?_, ?_, ?_⟩
    · intro hin
      rw [hreset, wrap_of_isInt _ hin]
    · rw [hreset]; exact hsame
    · intro _
      refine ⟨?_, (admitted_passCalls64 _ _ _).1, (admitted_passCalls64 _ _ _).2⟩
      rw [hrem, hcfg]
      rfl
    · intro hlt
      omega
    · intro _ _
      exact (admitted_passCalls64 _ _ _).1

/-- C7 for a key with 12 hits in a window opened at 1000, swept at 1060 and
hit again with the clock read as 1075 and as 1076, with the default
configuration. -/
theorem C7_reset_then_first_hit_witness :
    (recordHit64 (sweep { cfg := resolve [], hits := ⟨[("10.0.0.1", 12)]⟩,
                          reset := ⟨[("10.0.0.1", 1060)]⟩ } 1060) 1075 1076 "10.0.0.1").2.1
      = 1 ∧
    ∃ (l1 : Limiter) (calls : List Call),
      serve64 (sweep { cfg := resolve [], hits := ⟨[("10.0.0.1", 12)]⟩,
                       reset := ⟨[("10.0.0.1", 1060)]⟩ } 1060) 1075 1076
          (Ctx.request "10.0.0.1" "/") = some (l1, calls) ∧
      l1.hits.get "10.0.0.1" = 1 ∧ l1.reset.get "10.0.0.1" = 1075 + 60 ∧
      admitted calls = true :=
  ⟨(C7_reset_then_first_hit
      { cfg := resolve [], hits := ⟨[("10.0.0.1", 12)]⟩, reset := ⟨[("10.0.0.1", 1060)]⟩ }
      (fun c => c.IP)
      (fun c => (c.Status 429).SendString "Too many requests, please try again later.")
      rfl rfl "10.0.0.1" 1060 1075 1076 (Ctx.request "10.0.0.1" "/")
      (by decide) (by decide) rfl rfl).1,
   (C7_reset_then_first_hit
      { cfg := resolve [], hits := ⟨[("10.0.0.1", 12)]⟩, reset := ⟨[("10.0.0.1", 1060)]⟩ }
      (fun c => c.IP)
      (fun c => (c.Status 429).SendString "Too many requests, please try again later.")
      rfl rfl "10.0.0.1" 1060 1075 1076 (Ctx.request "10.0.0.1" "/")
      (by decide) (by decide) rfl rfl).2.elim
    (fun l1 h1 => h1.elim (fun calls h2 =>
      ⟨l1, calls, h2.1, h2.2.1, h2.2.2.2.1 (by decide),
        h2.2.2.2.2.2.2.2.2 (by decide) (by decide)⟩))⟩

/-- C15, as stated, fails in its last part: with Max = -9223372036854775808,
which New keeps, a key with hits[k] = 5 >= Max and a window that ended at 1060
is hit at 1100; the difference of line 125 wraps around to 9223372036854775802
and the evaluation is admitted. -/
theorem C15_stale_hit_admitted_when_remaining_wraps :
    (serve64 { cfg := resolve [{ Config.zero with Max := -9223372036854775808 }],
               hits := ⟨[("10.0.0.1", 5)]⟩, reset := ⟨[("10.0.0.1", 1060)]⟩ }
        1100 1100 (Ctx.request "10.0.0.1" "/")).map
      (fun r => (admitted r.2, rejected r.2, r.1.hits.get "10.0.0.1",
        (execAll helloTester r.2 (Ctx.request "10.0.0.1" "/")).Get "X-RateLimit-Remaining"))
    = some (true, false, 6, some "9223372036854775802") := by
  decide

/-- C15, amended. For a key k with reset[k] not 0 and a clock value now, read
at line 122, with now >= reset[k], the sweeper not having reset k, an
evaluation for k does not open a window: it keeps reset[k], counts on from the
old hits[k], so hitCount = hits[k] + 1, and reports reset[k] - now reduced to
the range of int, which is reset[k] - now and at most 0 when that difference
is in the range. It is rejected exactly when Max - hitCount, reduced to the
range of int, is negative: so whenever the old hits[k] is at least Max and
Max - hitCount is not below the least int; where that difference wraps around
it is admitted. -/
theorem C15_stale_window_is_kept (l : Limiter) (now1 now : Int) (c : Ctx)
    (keyFn : Ctx → String) (h : Ctx → Ctx) (hK : l.cfg.Key = some keyFn)
    (hH : l.cfg.Handler = some h) (hb : bypass l.cfg c = false)
    (hne : l.reset.get (keyFn c) ≠ 0) (hexp : l.reset.get (keyFn c) ≤ now) :
    ∃ (l1 : Limiter) (calls : List Call), serve64 l now1 now c = some (l1, calls) ∧
      l1.reset.get (keyFn c) = l.reset.get (keyFn c) ∧
      l1.hits.get (keyFn c) = l.hits.get (keyFn c) + 1 ∧
      (recordHit64 l now1 now (keyFn c)).2.1 = l.hits.get (keyFn c) + 1 ∧
      (recordHit64 l now1 now (keyFn c)).2.2 = wrap (l.reset.get (keyFn c) - now) ∧
      (isInt (l.reset.get (keyFn c) - now) →
        wrap (l.reset.get (keyFn c) - now) = l.reset.get (keyFn c) - now ∧
        l.reset.get (keyFn c) - now ≤ 0) ∧
      (wrap (l.cfg.Max - (l.hits.get (keyFn c) + 1)) < 0 →
        calls = [Call.handler h,
                 Call.set "Retry-After" (Itoa (wrap (l.reset.get (keyFn c) - now)))] ∧
        rejected calls = true ∧ admitted calls = false) ∧
      (0 ≤ wrap (l.cfg.Max - (l.hits.get (keyFn c) + 1)) →
        calls = passCalls64 l.cfg (wrap (l.cfg.Max - (l.hits.get (keyFn c) + 1)))
          (wrap (l.reset.get (keyFn c) - now)) ∧
        admitted calls = true ∧ rejected calls = false) ∧
      (l.cfg.Max ≤ l.hits.get (keyFn c) →
        minInt ≤ l.cfg.Max - (l.hits.get (keyFn c) + 1) →
        rejected calls = true ∧ admitted calls = false) := by
  have hkeep : (recordHit64 l now1 now (keyFn c)).1.reset.get (keyFn c)
      = l.reset.get (keyFn c) := by
    rw [recordHit64_reset_same, if_neg hne]
  have htime : (recordHit64 l now1 now (keyFn c)).2.2 = wrap (l.reset.get (keyFn c) - now) := by
    rw [recordHit64_resetTime, hkeep]
  have hfit : isInt (l.reset.get (keyFn c) - now) →
      wrap (l.reset.get (keyFn c) - now) = l.reset.get (keyFn c) - now ∧
      l.reset.get (keyFn c) - now ≤ 0 :=
    fun hin => ⟨wrap_of_isInt _ hin, by omega⟩
  have hlow : l.cfg.Max ≤ l.hits.get (keyFn c) →
      minInt ≤ l.cfg.Max - (l.hits.get (keyFn c) + 1) →
      wrap (l.cfg.Max - (l.hits.get (keyFn c) + 1)) < 0 := by
    intro h1 h2
    simp only [minInt] at h2
    unfold wrap
    omega
  by_cases hrem : wrap (l.cfg.Max - (l.hits.get (keyFn c) + 1)) < 0
  · refine ⟨_, _, serve64_block l now1 now c keyFn h hK hH hb hrem, hkeep,
      recordHit64_hits_same l now1 now _, recordHit64_hitCount l now1 now _, htime, hfit,
      ?_, ?_, ?_⟩
    · intro _
      rw [hkeep]
      exact ⟨rfl, (rejected_blockCalls _ _).2, (rejected_blockCalls _ _).1⟩
    · intro hpos
      omega
    · intro _ _
      exact ⟨(rejected_blockCalls _ _).2, (rejected_blockCalls _ _).1⟩
  · refine ⟨_, _, serve64_pass l now1 now c keyFn hK hb (by omega), hkeep,
      recordHit64_hits_same l now1 now _, recordHit64_hitCount l now1 now _, htime, hfit,
      ?_, ?_, ?_⟩
    · intro hlt
      omega
    · intro _
      rw [hkeep]
      exact ⟨rfl, (admitted_passCalls64 _ _ _).1, (admitted_passCalls64 _ _ _).2⟩
    · intro h1 h2
      have := hlow h1 h2
      omega

/-- C15 on a key that used up Max = 10 in a window that ended at 1060, hit
again at 1100 before any pass of the sweeper. -/
theorem C15_stale_window_is_kept_witness :
    ∃ (l1 : Limiter) (calls : List Call),
      serve64 { cfg := resolve [], hits := ⟨[("10.0.0.1", 10)]⟩,
                reset := ⟨[("10.0.0.1", 1060)]⟩ } 1100 1100 (Ctx.request "10.0.0.1" "/")
        = some (l1, calls) ∧
      l1.reset.get "10.0.0.1" = 1060 ∧ l1.hits.get "10.0.0.1" = 11 ∧
      rejected calls = true :=
  (C15_stale_window_is_kept
      { cfg := resolve [], hits := ⟨[("10.0.0.1", 10)]⟩, reset := ⟨[("10.0.0.1", 1060)]⟩ }
      1100 1100 (Ctx.request "10.0.0.1" "/") (fun c => c.IP)
      (fun c => (c.Status 429).SendString "Too many requests, please try again later.")
      rfl rfl rfl (by decide) (by decide)).elim
    (fun l1 hl1 => hl1.elim
      (fun calls hc => ⟨l1, calls, hc.1, hc.2.1, hc.2.2.1,
        (hc.2.2.2.2.2.2.2.2 (by decide) (by decide)).1⟩))

/-! ## Claims on reachable states -/

/-- C17. With a resolved Timeout > 0 and clock values >= 0, both within the
range of int, in every state that a list of requests, sweeper iterations and
sweeper passes reaches from the empty store of New, for every key k,
hits[k] >= 0 and hits[k] = 0 if and only if reset[k] = 0. -/
theorem C17_count_and_window_coupled (config : List Config) (es : List Event)
    (l : Limiter)
    (hT : 0 < (New config).cfg.Timeout ∧ (New config).cfg.Timeout ≤ maxInt)
    (hclock : ∀ e ∈ es, ∀ t ∈ e.clocks, 0 ≤ t ∧ t ≤ maxInt)
    (hrun : run (New config) es = some l) :
    ∀ k : String, 0 ≤ l.hits.get k ∧ (l.hits.get k = 0 ↔ l.reset.get k = 0) := by
  refine run_coupled es (New config) l hrun hT hclock ?_
  intro k
  exact ⟨le_refl 0, Iff.rfl⟩

/-- C17 on two requests and a pass of the sweeper in between, at the key the
sweeper has reset and at the key whose window is open. -/
theorem C17_count_and_window_coupled_witness :
    (0 ≤ lookup [("10.0.0.1", 0), ("10.0.0.2", 1)] "10.0.0.1" ∧
      (lookup [("10.0.0.1", 0), ("10.0.0.2", 1)] "10.0.0.1" = 0 ↔
        lookup [("10.0.0.1", 0), ("10.0.0.2", 1121)] "10.0.0.1" = 0)) ∧
    (0 ≤ lookup [("10.0.0.1", 0), ("10.0.0.2", 1)] "10.0.0.2" ∧
      (lookup [("10.0.0.1", 0), ("10.0.0.2", 1)] "10.0.0.2" = 0 ↔
        lookup [("10.0.0.1", 0), ("10.0.0.2", 1121)] "10.0.0.2" = 0)) :=
  ⟨C17_count_and_window_coupled []
      [Event.request 1000 1000 (Ctx.request "10.0.0.1" "/"), Event.sweep 1060,
       Event.request 1061 1062 (Ctx.request "10.0.0.2" "/")]
      { cfg := resolve [], hits := ⟨[("10.0.0.1", 0), ("10.0.0.2", 1)]⟩,
        reset := ⟨[("10.0.0.1", 0), ("10.0.0.2", 1121)]⟩ }
      (by decide) (by decide) rfl "10.0.0.1",
   C17_count_and_window_coupled []
      [Event.request 1000 1000 (Ctx.request "10.0.0.1" "/"), Event.sweep 1060,
       Event.request 1061 1062 (Ctx.request "10.0.0.2" "/")]
      { cfg := resolve [], hits := ⟨[("10.0.0.1", 0), ("10.0.0.2", 1)]⟩,
        reset := ⟨[("10.0.0.1", 0), ("10.0.0.2", 1121)]⟩ }
      (by decide) (by decide) rfl "10.0.0.2"⟩

/-- C18, as stated, fails in both directions of its last part. On a new
limiter with the default Timeout 60, a first hit of a window whose two reads
of the clock, at lines 117 and 122, give 1000 and 1001 has reset[key] = 0
beforehand and reports 59, not Timeout. And the second of two requests of one
key, all reads of the clock giving 1000, meets reset[key] = 1060, not 0, and
still reports 60 = Timeout. -/
theorem C18_first_hit_below_Timeout_second_hit_at_Timeout :
    ((New []).cfg.Timeout = 60 ∧ (New []).reset.get "10.0.0.1" = 0 ∧
      (serve64 (New []) 1000 1001 (Ctx.request "10.0.0.1" "/")).map
        (fun r => (execAll helloTester r.2 (Ctx.request "10.0.0.1" "/")).Get
          "X-RateLimit-Reset")
      = some (some "59")) ∧
    ((run (New []) [Event.request 1000 1000 (Ctx.request "10.0.0.1" "/")]).bind
        (fun l => (serve64 l 1000 1000 (Ctx.request "10.0.0.1" "/")).map
          (fun r => (l.reset.get "10.0.0.1",
            (execAll helloTester r.2 (Ctx.request "10.0.0.1" "/")).Get
              "X-RateLimit-Reset")))
      = some (1060, some "60")) := by
  refine ⟨⟨?_, ?_, ?_⟩, ?_⟩ <;> decide

/-- C18, amended. With a resolved Timeout > 0 and clock values >= 0 that never
decrease, all within the range of int: in every state reached from the empty
store of New, an evaluation that reads the clock as t117 at line 117 and as
t122 at line 122 reports, as X-RateLimit-Reset or Retry-After, the value
reset[key] - t122; it is at most Timeout; when reset[key] was 0 beforehand it
is Timeout - (t122 - t117), which is Timeout when the clock did not move
between the two reads; and in every case it is Timeout exactly when reset[key]
is what a window opened at t122 has, whether reset[key] was 0 beforehand or
not. -/
theorem C18_reported_reset_at_most_Timeout (config : List Config) (es : List Event)
    (l : Limiter) (t117 t122 : Int) (c : Ctx) (keyFn : Ctx → String) (h : Ctx → Ctx)
    (hrun : run (New config) es = some l)
    (hT : 0 < l.cfg.Timeout ∧ l.cfg.Timeout ≤ maxInt)
    (hclock : ∀ e ∈ es, ∀ t ∈ e.clocks, 0 ≤ t ∧ t ≤ t117)
    (h117 : 0 ≤ t117 ∧ t117 ≤ t122) (h122 : t122 ≤ maxInt)
    (hK : l.cfg.Key = some keyFn) (hH : l.cfg.Handler = some h)
    (hb : bypass l.cfg c = false) :
    ∃ (l1 : Limiter) (calls : List Call) (resetIn : Int),
      serve64 l t117 t122 c = some (l1, calls) ∧
      resetIn = wrap (l1.reset.get (keyFn c) - t122) ∧
      (calls = passCalls64 l.cfg (wrap (l.cfg.Max - (l.hits.get (keyFn c) + 1))) resetIn ∨
        calls = blockCalls h resetIn) ∧
      resetIn ≤ l.cfg.Timeout ∧
      (l.reset.get (keyFn c) = 0 → resetIn = l.cfg.Timeout - (t122 - t117)) ∧
      (resetIn = l.cfg.Timeout ↔ l1.reset.get (keyFn c) = wrap (t122 + l.cfg.Timeout)) := by
  have hopened := run_opened t117 es (New config) l hrun hclock
    (fun k => Or.inl (IntMap.get_empty k)) (keyFn c)
  have hreset := recordHit64_reset_same l t117 t122 (keyFn c)
  have hkey : ∀ t0 : Int, 0 ≤ t0 → t0 ≤ t117 →
      wrap (wrap (t0 + l.cfg.Timeout) - t122) = t0 + l.cfg.Timeout - t122 := by
    intro t0 h0 h1
    rw [wrap_sub_wrap]
    apply wrap_of_isInt
    have := hT.1
    have := hT.2
    have := h117.2
    simp only [isInt, minInt, maxInt] at *
    omega
  have hsame : ∀ t0 : Int, 0 ≤ t0 → t0 ≤ t117 →
      (wrap (t0 + l.cfg.Timeout) = wrap (t122 + l.cfg.Timeout) ↔ t0 = t122) := by
    intro t0 h0 h1
    have := hT.1
    have := hT.2
    have := h117.2
    simp only [maxInt] at *
    unfold wrap
    omega
  have hfacts : ∀ t0 : Int, 0 ≤ t0 → t0 ≤ t117 →
      (recordHit64 l t117 t122 (keyFn c)).1.reset.get (keyFn c)
        = wrap (t0 + l.cfg.Timeout) →
      wrap ((recordHit64 l t117 t122 (keyFn c)).1.reset.get (keyFn c) - t122)
          ≤ l.cfg.Timeout ∧
      (wrap ((recordHit64 l t117 t122 (keyFn c)).1.reset.get (keyFn c) - t122)
          = l.cfg.Timeout ↔
        (recordHit64 l t117 t122 (keyFn c)).1.reset.get (keyFn c)
          = wrap (t122 + l.cfg.Timeout)) := by
    intro t0 h0 h1 he
    rw [he, hkey t0 h0 h1, hsame t0 h0 h1]
    have := h117.2
    exact ⟨by omega, ⟨fun hh => by omega, fun hh => by omega⟩⟩
  have hall : wrap ((recordHit64 l t117 t122 (keyFn c)).1.reset.get (keyFn c) - t122)
        ≤ l.cfg.Timeout ∧
      (l.reset.get (keyFn c) = 0 →
        wrap ((recordHit64 l t117 t122 (keyFn c)).1.reset.get (keyFn c) - t122)
          = l.cfg.Timeout - (t122 - t117)) ∧
      (wrap ((recordHit64 l t117 t122 (keyFn c)).1.reset.get (keyFn c) - t122)
          = l.cfg.Timeout ↔
        (recordHit64 l t117 t122 (keyFn c)).1.reset.get (keyFn c)
          = wrap (t122 + l.cfg.Timeout)) := by
    by_cases hr : l.reset.get (keyFn c) = 0
    · rw [if_pos hr] at hreset
      have hf := hfacts t117 h117.1 (le_refl _) hreset
      refine ⟨hf.1, fun _ => ?_, hf.2⟩
      rw [hreset, hkey t117 h117.1 (le_refl _)]
      omega
    · rw [if_neg hr] at hreset
      rcases hopened with h0 | ⟨t0, h0, h1, he⟩
      · exact absurd h0 hr
      · have hf := hfacts t0 h0 h1 (hreset.trans he)
        exact ⟨hf.1, fun hz => absurd hz hr, hf.2⟩
  by_cases hrem : wrap (l.cfg.Max - (l.hits.get (keyFn c) + 1)) < 0
  · exact ⟨_, _, _, serve64_block l t117 t122 c keyFn h hK hH hb hrem, rfl, Or.inr rfl, hall⟩
  · exact ⟨_, _, _, serve64_pass l t117 t122 c keyFn hK hb (by omega), rfl, Or.inl rfl, hall⟩

/-- C18 on a window opened at 1000 and a first hit of another key whose two
reads of the clock give 1020 and 1021. -/
theorem C18_reported_reset_at_most_Timeout_witness :
    ∃ (l1 : Limiter) (calls : List Call) (resetIn : Int),
      serve64 (recordHit64 (New []) 1000 1000 "10.0.0.1").1 1020 1021
          (Ctx.request "10.0.0.2" "/") = some (l1, calls) ∧
      resetIn = wrap (l1.reset.get "10.0.0.2" - 1021) ∧ resetIn ≤ 60 ∧
      resetIn = 60 - (1021 - 1020) :=
  (C18_reported_reset_at_most_Timeout []
      [Event.request 1000 1000 (Ctx.request "10.0.0.1" "/")]
      (recordHit64 (New []) 1000 1000 "10.0.0.1").1 1020 1021 (Ctx.request "10.0.0.2" "/")
      (fun c => c.IP)
      (fun c => (c.Status 429).SendString "Too many requests, please try again later.")
      rfl (by decide) (by decide) (by decide) (by decide) rfl rfl rfl).elim
    (fun l1 h1 => h1.elim (fun calls h2 => h2.elim (fun resetIn h3 =>
      ⟨l1, calls, resetIn, h3.1, h3.2.1, h3.2.2.2.1, h3.2.2.2.2.1 (by decide)⟩)))

/-- C14, as stated, fails in its last part: with Max = -9223372036854775807,
which New keeps, the first request of a key is counted and rejected, its
difference of line 125 being the least int; the second request of the key,
with no pass of the sweeper in between, is counted too, its difference wraps
around to the greatest int, and it is admitted. -/
theorem C14_rejected_then_admitted :
    ((serve64 (New [{ Config.zero with Max := -9223372036854775807 }]) 1000 1000
        (Ctx.request "10.0.0.1" "/")).map
      (fun r => (admitted r.2, rejected r.2, r.1.hits.get "10.0.0.1"))
      = some (false, true, 1)) ∧
    ((serve64 (New [{ Config.zero with Max := -9223372036854775807 }]) 1000 1000
        (Ctx.request "10.0.0.1" "/")).bind
      (fun r => (serve64 r.1 1001 1001 (Ctx.request "10.0.0.1" "/")).map
        (fun r2 => (admitted r2.2, rejected r2.2, r2.1.hits.get "10.0.0.1",
          r2.1.reset.get "10.0.0.1",
          (execAll helloTester r2.2 (Ctx.request "10.0.0.1" "/")).Get
            "X-RateLimit-Remaining")))
      = some (true, false, 2, 1060, some "9223372036854775807")) := by
  constructor <;> decide

/-- C14, amended. Every evaluation that is not bypassed is counted: it raises
hits of its key by exactly 1, whether it is admitted or rejected, and it is
rejected exactly when Max - hitCount, reduced to the range of int, is
negative. No request lowers hits[k]. In a state reached from the empty store
of New, an event that takes hits[k] from a value that is not 0 to 0 is the
sweeper resetting k. So after a rejected evaluation for k, met with
hits[k] >= 0, across any events that do not reset k, every later evaluation
for k whose difference Max - hitCount is not below the least int is
rejected. -/
theorem C14_every_evaluation_is_counted :
    (∀ (l : Limiter) (t117 t122 : Int) (c : Ctx) (keyFn : Ctx → String) (h : Ctx → Ctx),
      l.cfg.Key = some keyFn → l.cfg.Handler = some h → bypass l.cfg c = false →
      ∃ (l1 : Limiter) (calls : List Call), serve64 l t117 t122 c = some (l1, calls) ∧
        l1.hits.get (keyFn c) = l.hits.get (keyFn c) + 1 ∧
        (admitted calls = true ∧ rejected calls = false ∧
            0 ≤ wrap (l.cfg.Max - l1.hits.get (keyFn c)) ∨
          admitted calls = false ∧ rejected calls = true ∧
            wrap (l.cfg.Max - l1.hits.get (keyFn c)) < 0)) ∧
    (∀ (l l1 : Limiter) (t117 t122 : Int) (c : Ctx) (k : String),
      step l (Event.request t117 t122 c) = some l1 → l.hits.get k ≤ l1.hits.get k) ∧
    (∀ (config : List Config) (es : List Event) (l l1 : Limiter) (e : Event) (k : String),
      run (New config) es = some l → step l e = some l1 →
      l.hits.get k ≠ 0 → l1.hits.get k = 0 →
      e.isRequest = false ∧ e.resets l k = true) ∧
    (∀ (l l1 l2 : Limiter) (t117 t122 u117 u122 : Int) (c d : Ctx) (calls : List Call)
      (keyFn : Ctx → String) (h : Ctx → Ctx) (es : List Event),
      l.cfg.Key = some keyFn → l.cfg.Handler = some h →
      l.cfg.Max ≤ maxInt → 0 ≤ l.hits.get (keyFn c) →
      serve64 l t117 t122 c = some (l1, calls) → rejected calls = true →
      run l1 es = some l2 → noReset (keyFn c) l1 es = true →
      bypass l.cfg d = false → keyFn d = keyFn c →
      minInt ≤ l.cfg.Max - (l2.hits.get (keyFn c) + 1) →
      ∃ (l3 : Limiter) (calls2 : List Call), serve64 l2 u117 u122 d = some (l3, calls2) ∧
        rejected calls2 = true ∧ admitted calls2 = false) := by
  refine ⟨?_, ?_, ?_, ?_⟩
  · intro l t117 t122 c keyFn h hK hH hb
    by_cases hrem : wrap (l.cfg.Max - (l.hits.get (keyFn c) + 1)) < 0
    · refine ⟨_, _, serve64_block l t117 t122 c keyFn h hK hH hb hrem,
        recordHit64_hits_same l t117 t122 _, Or.inr ⟨(rejected_blockCalls _ _).1,
          (rejected_blockCalls _ _).2, ?_⟩⟩
      rw [recordHit64_hits_same]; exact hrem
    · refine ⟨_, _, serve64_pass l t117 t122 c keyFn hK hb (by omega),
        recordHit64_hits_same l t117 t122 _, Or.inl ⟨(admitted_passCalls64 _ _ _).1,
          (admitted_passCalls64 _ _ _).2, ?_⟩⟩
      rw [recordHit64_hits_same]; omega
  · intro l l1 t117 t122 c k hs
    exact step_hits_mono l (Event.request t117 t122 c) l1 k hs rfl
  · intro config es l l1 e k hrun hs hne hzero
    have hnn := run_hits_nonneg es (New config) l hrun
      (fun x => le_of_eq (IntMap.get_empty x).symm) k
    cases hq : e.resets l k with
    | true =>
      cases e with
      | request t117 t122 c => simp [Event.resets] at hq
      | sweepKey t key => exact ⟨rfl, rfl⟩
      | sweep t => exact ⟨rfl, rfl⟩
      | abort => simp [Event.resets] at hq
    | false =>
      have := step_hits_mono l e l1 k hs hq
      omega
  · intro l l1 l2 t117 t122 u117 u122 c d calls keyFn h es hK hH hMax hnn hs hrej hrun hq
      hbd hkey hlow
    have hcfg1 : l1.cfg = l.cfg := by
      rcases serve64_state l t117 t122 c l1 calls hs with ⟨-, e1⟩ | ⟨kf, -, -, e1⟩
      · rw [e1]
      · rw [e1, recordHit64_cfg]
    have hcfg2 : l2.cfg = l.cfg := by rw [run_cfg es l1 l2 hrun, hcfg1]
    have hover : l1.hits.get (keyFn c) = l.hits.get (keyFn c) + 1 ∧
        wrap (l.cfg.Max - (l.hits.get (keyFn c) + 1)) < 0 := by
      by_cases hb : bypass l.cfg c = true
      · rw [serve64_bypass l t117 t122 c hb] at hs
        simp only [Option.some.injEq, Prod.mk.injEq] at hs
        rw [← hs.2] at hrej
        exact absurd hrej (by decide)
      · have hb0 : bypass l.cfg c = false := by simpa using hb
        by_cases hrem : wrap (l.cfg.Max - (l.hits.get (keyFn c) + 1)) < 0
        · rw [serve64_block l t117 t122 c keyFn h hK hH hb0 hrem] at hs
          simp only [Option.some.injEq, Prod.mk.injEq] at hs
          rw [← hs.1, recordHit64_hits_same]
          exact ⟨rfl, hrem⟩
        · rw [serve64_pass l t117 t122 c keyFn hK hb0 (by omega)] at hs
          simp only [Option.some.injEq, Prod.mk.injEq] at hs
          rw [← hs.2, (admitted_passCalls64 _ _ _).2] at hrej
          exact absurd hrej (by decide)
    have hmono := run_hits_mono (keyFn c) es l1 l2 hrun hq
    have hrem2 : wrap (l2.cfg.Max - (l2.hits.get (keyFn d) + 1)) < 0 := by
      rw [hcfg2, hkey]
      have h1 := hover.1
      have h2 := hover.2
      simp only [minInt, maxInt] at hlow hMax
      unfold wrap at h2 ⊢
      omega
    exact ⟨_, _, serve64_block l2 u117 u122 d keyFn h (by rw [hcfg2]; exact hK)
      (by rw [hcfg2]; exact hH) (by rw [hcfg2]; exact hbd) hrem2,
      (rejected_blockCalls _ _).2, (rejected_blockCalls _ _).1⟩

/-- C14 on a key that used up Max = 2: the third request is rejected and
counted, and after a request of another key and a pass of the sweeper that
finds the window still open, the next request of the key is rejected too. -/
theorem C14_every_evaluation_is_counted_witness :
    (∃ (l1 : Limiter) (calls : List Call),
      serve64 { cfg := resolve [{ Config.zero with Max := 2 }],
                hits := ⟨[("10.0.0.1", 2)]⟩, reset := ⟨[("10.0.0.1", 1060)]⟩ }
          1010 1010 (Ctx.request "10.0.0.1" "/") = some (l1, calls) ∧
        l1.hits.get "10.0.0.1" = 2 + 1) ∧
    (∃ (l3 : Limiter) (calls2 : List Call),
      serve64 (sweep (recordHit64 (recordHit64
              { cfg := resolve [{ Config.zero with Max := 2 }],
                hits := ⟨[("10.0.0.1", 2)]⟩, reset := ⟨[("10.0.0.1", 1060)]⟩ }
              1010 1010 "10.0.0.1").1 1020 1020 "10.0.0.2").1 1030)
          1040 1041 (Ctx.request "10.0.0.1" "/a") = some (l3, calls2) ∧
        rejected calls2 = true ∧ admitted calls2 = false) :=
  ⟨(C14_every_evaluation_is_counted.1
      { cfg := resolve [{ Config.zero with Max := 2 }],
        hits := ⟨[("10.0.0.1", 2)]⟩, reset := ⟨[("10.0.0.1", 1060)]⟩ }
      1010 1010 (Ctx.request "10.0.0.1" "/") (fun c => c.IP)
      (fun c => (c.Status 429).SendString "Too many requests, please try again later.")
      rfl rfl rfl).elim
      (fun l1 h1 => h1.elim (fun calls h2 => ⟨l1, calls, h2.1, h2.2.1⟩)),
   C14_every_evaluation_is_counted.2.2.2
      { cfg := resolve [{ Config.zero with Max := 2 }],
        hits := ⟨[("10.0.0.1", 2)]⟩, reset := ⟨[("10.0.0.1", 1060)]⟩ }
      (recordHit64 { cfg := resolve [{ Config.zero with Max := 2 }],
                     hits := ⟨[("10.0.0.1", 2)]⟩, reset := ⟨[("10.0.0.1", 1060)]⟩ }
        1010 1010 "10.0.0.1").1
      (sweep (recordHit64 (recordHit64
              { cfg := resolve [{ Config.zero with Max := 2 }],
                hits := ⟨[("10.0.0.1", 2)]⟩, reset := ⟨[("10.0.0.1", 1060)]⟩ }
              1010 1010 "10.0.0.1").1 1020 1020 "10.0.0.2").1 1030)
      1010 1010 1040 1041 (Ctx.request "10.0.0.1" "/") (Ctx.request "10.0.0.1" "/a")
      (blockCalls
        (fun c => (c.Status 429).SendString "Too many requests, please try again later.")
        (wrap (1060 - 1010)))
      (fun c => c.IP)
      (fun c => (c.Status 429).SendString "Too many requests, please try again later.")
      [Event.request 1020 1020 (Ctx.request "10.0.0.2" "/"), Event.sweep 1030]
      rfl rfl (by decide) (by decide) rfl rfl rfl rfl rfl rfl (by decide)⟩

/-! ## Claims on requests served at the same time -/

/-- C13, as stated, fails in its bound. New keeps Max = -1, and then one
request runs to the end, is counted, hits = 1, and is not admitted; the number
of admitted requests, 0, is not at most Max. New keeps Max =
-9223372036854775808 too, and then two requests run to the end, both are
counted, hits = 2, and both are admitted, the difference of line 125 wrapping
around; the number of admitted requests, 2, is not at most Max. -/
theorem C13_admitted_count_above_negative_Max :
    (((World.start (New [{ Config.zero with Max := -1 }]) [Ctx.request "0.0.0.0" "/"]).run
        (List.replicate 9 (0, 1000))).map
      (fun w => (w.finished, w.l.hits.get "0.0.0.0",
        (w.gs.countP (fun g => admitted g.calls) : Int), w.l.cfg.Max,
        decide ((w.gs.countP (fun g => admitted g.calls) : Int) ≤ w.l.cfg.Max)))
      = some (true, 1, 0, -1, false)) ∧
    (((World.start (New [{ Config.zero with Max := -9223372036854775808 }])
          [Ctx.request "0.0.0.0" "/", Ctx.request "0.0.0.0" "/"]).run
        (List.replicate 9 (0, 1000) ++ List.replicate 9 (1, 1000))).map
      (fun w => (w.finished, w.l.hits.get "0.0.0.0",
        (w.gs.countP (fun g => admitted g.calls) : Int), w.l.cfg.Max,
        decide ((w.gs.countP (fun g => admitted g.calls) : Int) ≤ w.l.cfg.Max)))
      = some (true, 2, 2, -9223372036854775808, false)) := by
  constructor <;> decide

/-- C13, amended. N requests of one key, none bypassed, issued at the same time
on a new limiter, each run by its own goroutine statement by statement under
the mutex, with Max an int and N at most the greatest int: some schedule lets
all of them return; and whenever all have returned, whatever the interleaving
and the clock values read, hits[key] = N, the mutex is free, the hit counts
the requests read are distinct values from 1 to N, a request is admitted
exactly when Max - hitCount, reduced to the range of int, is not negative, and
all N are admitted when N <= Max. The number of admitted requests is
min(Max, N) when Max is not negative, so at most Max; when Max is negative it
is the greater of 0 and N - (Max + 2^63), where the difference of line 125
wraps around. -/
theorem C13_no_lost_updates (config : List Config) (cs : List Ctx) (keyFn : Ctx → String)
    (k : String) (hK : (New config).cfg.Key = some keyFn)
    (hreq : ∀ c ∈ cs, bypass (New config).cfg c = false ∧ keyFn c = k)
    (hMax : isInt (New config).cfg.Max) (hN : (cs.length : Int) ≤ maxInt) :
    (∃ (sched : List (Nat × Int)) (w : World),
      (World.start (New config) cs).run sched = some w ∧ w.finished = true) ∧
    (∀ (sched : List (Nat × Int)) (w : World),
      (World.start (New config) cs).run sched = some w → w.finished = true →
        w.gs.length = cs.length ∧ w.locked = false ∧
        w.l.hits.get k = cs.length ∧
        (w.gs.map (fun g => g.hitCount)).Nodup ∧
        (∀ g ∈ w.gs, 1 ≤ g.hitCount ∧ g.hitCount ≤ cs.length ∧
          (admitted g.calls = true ↔ 0 ≤ wrap ((New config).cfg.Max - g.hitCount)) ∧
          (rejected g.calls = true ↔ wrap ((New config).cfg.Max - g.hitCount) < 0)) ∧
        ((cs.length : Int) ≤ (New config).cfg.Max → ∀ g ∈ w.gs, admitted g.calls = true) ∧
        (0 ≤ (New config).cfg.Max →
          (w.gs.countP (fun g => admitted g.calls) : Int)
            = min (New config).cfg.Max cs.length ∧
          (w.gs.countP (fun g => admitted g.calls) : Int) ≤ (New config).cfg.Max) ∧
        ((New config).cfg.Max < 0 →
          (w.gs.countP (fun g => admitted g.calls) : Int)
            = max 0 (cs.length - ((New config).cfg.Max + 9223372036854775808)))) := by
  obtain ⟨kf, h, hK2, hH⟩ := resolve_funcs config
  have hkf : kf = keyFn := by
    have : some kf = some keyFn := hK2.symm.trans hK
    simpa using this
  subst hkf
  constructor
  · exact World.run_finishes kf h cs (New config) hK hH (fun c hc => (hreq c hc).1)
  · intro sched w hrun hfin
    have hstart := World.start_inv kf k (New config) cs (IntMap.get_empty k) hreq
    obtain ⟨w1, hrun1, hinv⟩ :=
      World.run_inv (New config).cfg kf h k cs.length hK hH sched _ hstart
    have hw : w1 = w := by
      have : some w1 = some w := hrun1.symm.trans hrun
      simpa using this
    subst hw
    obtain ⟨h1, h2, h3, h4, h5, h6⟩ :=
      Inv.finished (New config).cfg kf k cs.length w1 hinv hfin
    refine ⟨h1, h2, h3, h4, h5, ?_, ?_, ?_⟩
    · intro hle g hg
      obtain ⟨g1, g2, g3, -⟩ := h5 g hg
      rw [g3]
      have := hMax.2
      simp only [maxInt] at this
      unfold wrap
      omega
    · intro hpos
      have hc := count_admitted_nonneg_Max cs.length (New config).cfg.Max ⟨hpos, hMax.2⟩ hN
      rw [h6, hc]
      exact ⟨rfl, min_le_left _ _⟩
    · intro hneg
      have hc := count_admitted_neg_Max cs.length (New config).cfg.Max ⟨hMax.1, hneg⟩ hN
      rw [h6, hc]

/-- C13 on three requests of one address with Max 2, under a schedule that
interleaves their statements and lets the clock move. -/
theorem C13_no_lost_updates_witness :
    ∃ w : World,
      (World.start (New [{ Config.zero with Max := 2 }])
          (List.replicate 3 (Ctx.request "0.0.0.0" "/"))).run
        [(0, 1), (1, 1), (2, 1), (1, 1), (0, 1), (1, 2), (1, 2), (2, 2), (1, 2), (1, 3),
         (1, 4), (2, 5), (0, 5), (0, 5), (0, 5), (0, 5), (0, 5), (2, 5), (2, 5), (2, 5),
         (2, 5), (2, 6), (0, 6), (1, 6), (2, 6), (2, 7), (0, 9), (1, 9), (1, 9), (1, 9),
         (0, 9), (0, 9), (0, 10), (0, 10), (0, 10), (0, 10), (0, 10), (0, 10), (2, 11)] = some w ∧
      w.finished = true ∧ w.locked = false ∧
      w.l.hits.get "0.0.0.0" = (3 : Nat) ∧
      (w.gs.countP (fun g => admitted g.calls) : Int) = min 2 (3 : Nat) := by
  cases hr : (World.start (New [{ Config.zero with Max := 2 }])
      (List.replicate 3 (Ctx.request "0.0.0.0" "/"))).run
    [(0, 1), (1, 1), (2, 1), (1, 1), (0, 1), (1, 2), (1, 2), (2, 2), (1, 2), (1, 3),
     (1, 4), (2, 5), (0, 5), (0, 5), (0, 5), (0, 5), (0, 5), (2, 5), (2, 5), (2, 5),
     (2, 5), (2, 6), (0, 6), (1, 6), (2, 6), (2, 7), (0, 9), (1, 9), (1, 9), (1, 9),
     (0, 9), (0, 9), (0, 10), (0, 10), (0, 10), (0, 10), (0, 10), (0, 10), (2, 11)] with
  | none =>
    have hsome : ((World.start (New [{ Config.zero with Max := 2 }])
        (List.replicate 3 (Ctx.request "0.0.0.0" "/"))).run
      [(0, 1), (1, 1), (2, 1), (1, 1), (0, 1), (1, 2), (1, 2), (2, 2), (1, 2), (1, 3),
       (1, 4), (2, 5), (0, 5), (0, 5), (0, 5), (0, 5), (0, 5), (2, 5), (2, 5), (2, 5),
       (2, 5), (2, 6), (0, 6), (1, 6), (2, 6), (2, 7), (0, 9), (1, 9), (1, 9), (1, 9),
       (0, 9), (0, 9), (0, 10), (0, 10), (0, 10), (0, 10), (0, 10), (0, 10),
       (2, 11)]).isSome = true := by decide
    rw [hr] at hsome
    exact absurd hsome (by decide)
  | some w =>
    have hfin : ((World.start (New [{ Config.zero with Max := 2 }])
        (List.replicate 3 (Ctx.request "0.0.0.0" "/"))).run
      [(0, 1), (1, 1), (2, 1), (1, 1), (0, 1), (1, 2), (1, 2), (2, 2), (1, 2), (1, 3),
       (1, 4), (2, 5), (0, 5), (0, 5), (0, 5), (0, 5), (0, 5), (2, 5), (2, 5), (2, 5),
       (2, 5), (2, 6), (0, 6), (1, 6), (2, 6), (2, 7), (0, 9), (1, 9), (1, 9), (1, 9),
       (0, 9), (0, 9), (0, 10), (0, 10), (0, 10), (0, 10), (0, 10), (0, 10),
       (2, 11)]).map (fun w => w.finished) = some true := by decide
    rw [hr] at hfin
    have hfin1 : w.finished = true := by simpa using hfin
    have hall := (C13_no_lost_updates [{ Config.zero with Max := 2 }]
      (List.replicate 3 (Ctx.request "0.0.0.0" "/")) (fun c => c.IP) "0.0.0.0" rfl
      (by decide) (by decide) (by decide)).2 _ w hr hfin1
    exact ⟨w, rfl, hfin1, hall.2.1, hall.2.2.1, (hall.2.2.2.2.2.2.1 (by decide)).1⟩

end limiter
